import Mathlib

/-!
# no-hesitation: session rooms, doubt ledger and confusion aggregator

A shallow embedding of the backend controllers
(`backend/controllers/doubt.controller.js`,
`backend/controllers/confusion.controller.js`) and of the Socket.IO room
handlers of `backend/server.js`.

* The MongoDB collections are lists of rows, in store order.
* A controller is a function from the state before the request to the state
  after it together with the HTTP reply.
* `req.io.to(room).emit(name, payload)` appends an `Emission` to the log of
  the state.
* Every awaited store call can throw; which ones do is an input (`Faults`).
* `new Date()` and `Date.now()` are an input (`now`, in milliseconds).
* An ObjectId is given by its string form; a request string handed to
  `Session.findById` is cast to one (`castObjectId`).
-/

namespace NoHesitation

/-! ## Strings -/

/-- JS `s.toUpperCase()`. Session identities are ObjectId strings (hexadecimal
digits), for which upper-casing only touches the ASCII letters. -/
def toUpperCase (s : String) : String :=
  String.mk (s.data.map Char.toUpper)

/-- JS `s.slice(-6)`: the last six characters, the whole string when it is
shorter. -/
def sliceLast6 (s : String) : String :=
  String.mk (s.data.drop (s.data.length - 6))

/-! ## Data model -/

/-- The `settings` sub-document of a session. -/
structure Settings where
  autoMergeDoubts : Bool
  deriving DecidableEq, Repr

/-- The `stats` sub-document of a session. -/
structure SessionStats where
  totalDoubts : Int
  answeredDoubts : Int
  deriving DecidableEq, Repr

/-- A row of the Session collection; `id` is `_id.toString()`. -/
structure Session where
  id : String
  isActive : Bool
  settings : Settings
  stats : SessionStats
  deriving DecidableEq, Repr

/-- An entry of `mergedStudents`. -/
structure MergedStudent where
  studentId : String
  studentName : String
  timestamp : Int
  deriving DecidableEq, Repr

/-- A row of the Doubt collection. -/
structure Doubt where
  id : Nat
  sessionId : String
  question : String
  studentId : String
  studentName : String
  isAnonymous : Bool
  topic : String
  confusionLevel : Int
  isAnswered : Bool
  answer : Option String
  answeredAt : Option Int
  upvotes : Int
  upvotedBy : List String
  mergedWith : Option Nat
  mergedCount : Int
  mergedStudents : List MergedStudent
  deriving DecidableEq, Repr

/-- A row of the Confusion collection. -/
structure Confusion where
  sessionId : String
  studentId : String
  studentName : String
  level : Int
  timestamp : Int
  deriving DecidableEq, Repr

/-- The snapshot object built by `getConfusionStats`. -/
structure Stats where
  clear : Nat
  slight : Nat
  confused : Nat
  lost : Nat
  total : Nat
  deriving DecidableEq, Repr

/-- What `emit` carries; the constructor fixes the event name. -/
inductive Payload where
  | newDoubt (doubt : Doubt)
  | doubtMerged (doubt : Doubt) (mergedCount : Int)
  | doubtAnswered (doubt : Doubt)
  | doubtUpvoted (doubt : Doubt)
  | confusionUpdated (stats : Stats)
  deriving DecidableEq, Repr

/-- The event name passed to `emit`. -/
def Payload.eventName : Payload → String
  | .newDoubt _ => "new-doubt"
  | .doubtMerged _ _ => "doubt-merged"
  | .doubtAnswered _ => "doubt-answered"
  | .doubtUpvoted _ => "doubt-upvoted"
  | .confusionUpdated _ => "confusion-updated"

/-- One `req.io.to(room).emit(name, payload)`. -/
structure Emission where
  room : String
  payload : Payload
  deriving DecidableEq, Repr

/-- The three collections, the identity generator of new documents and the log
of emissions (oldest first). -/
structure World where
  sessions : List Session
  doubts : List Doubt
  confusions : List Confusion
  nextId : Nat
  emitted : List Emission
  deriving DecidableEq, Repr

/-- Which awaited store calls throw during a request, one flag per call site. -/
structure Faults where
  sessionFind : Bool
  sessionFindById : Bool
  findSimilarDoubts : Bool
  mainDoubtSave : Bool
  doubtSave : Bool
  sessionSave : Bool
  doubtFindById : Bool
  sessionFindByIdAndUpdate : Bool
  confusionSave : Bool
  confusionAggregate : Bool
  deriving DecidableEq, Repr

/-- No store call throws. -/
def Faults.none : Faults :=
  { sessionFind := false, sessionFindById := false, findSimilarDoubts := false,
    mainDoubtSave := false, doubtSave := false, sessionSave := false,
    doubtFindById := false, sessionFindByIdAndUpdate := false,
    confusionSave := false, confusionAggregate := false }

/-- The collaborators of `utils/nlp.utils`, which the controllers import:
`extractTopic(question)` and `findSimilarDoubts(sessionId, question)`, the
latter reading the Doubt collection. -/
structure Nlp where
  extractTopic : String → String
  findSimilarDoubts : List Doubt → String → String → List Doubt

/-- An HTTP reply: `res.status(status).json(body)` on the success path, or
`res.status(status).json({ error })`. -/
inductive Reply (α : Type) where
  | ok (status : Nat) (body : α)
  | fail (status : Nat) (error : String)
  deriving DecidableEq, Repr

/-- The `error.message` of a thrown store error. -/
def storeError : String := "store error"

/-! ## Code resolver -/

/-- The predicate of `allSessions.find(...)`:
`s._id.toString().slice(-6).toUpperCase() === sessionId.toUpperCase()`. -/
def codeMatches (sessionId : String) (s : Session) : Bool :=
  decide (toUpperCase (sliceLast6 s.id) = toUpperCase sessionId)

/-- The scan: `Session.find({ isActive: true })` followed by
`allSessions.find(...)`. -/
def findByCode (sessions : List Session) (sessionId : String) : Option Session :=
  (sessions.filter fun s => s.isActive).find? (codeMatches sessionId)

/-- The block "convert sessionId if it is a 6-character code" that opens every
controller: the identity the request is served under, or the error message of
the early return. -/
def resolveSessionId (sessions : List Session) (sessionId : String) :
    Except String String :=
  if sessionId.length = 6 then
    match findByCode sessions sessionId with
    | some session => .ok session.id
    | none => .error "Session not found"
  else .ok sessionId

/-! ## Doubt ledger -/

/-- The body of `POST /doubts`. `confusionLevel` may be absent. -/
structure SubmitDoubtReq where
  sessionId : String
  question : String
  studentId : String
  studentName : String
  isAnonymous : Bool
  confusionLevel : Option Int
  deriving DecidableEq, Repr

/-- The success body of `submitDoubt`: `{ success: true, doubt, merged }`. -/
structure SubmitDoubtBody where
  doubt : Doubt
  merged : Bool
  deriving DecidableEq, Repr

/-- The name stored for a submission: `isAnonymous ? 'Anonymous' : studentName`. -/
def displayName (isAnonymous : Bool) (studentName : String) : String :=
  if isAnonymous then "Anonymous" else studentName

/-- JS `confusionLevel || 1`: absent or zero gives 1. -/
def confusionLevelOrDefault : Option Int → Int
  | none => 1
  | some n => if n = 0 then 1 else n

/-- The `mergedStudents` entry of a submission. -/
def mergedEntry (now : Int) (req : SubmitDoubtReq) : MergedStudent :=
  { studentId := req.studentId,
    studentName := displayName req.isAnonymous req.studentName,
    timestamp := now }

/-- Modelled from the spec: the schema defaults of `models/Doubt.model`, which is
not among the sources (a new doubt has `mergedCount = 1`, no upvotes, no answer
and no `mergedWith`). The other fields are those of `new Doubt(...)` in
`submitDoubt`. -/
def newDoubt (nlp : Nlp) (now : Int) (freshId : Nat) (actualSessionId : String)
    (req : SubmitDoubtReq) : Doubt :=
  { id := freshId,
    sessionId := actualSessionId,
    question := req.question,
    studentId := req.studentId,
    studentName := displayName req.isAnonymous req.studentName,
    isAnonymous := req.isAnonymous,
    topic := nlp.extractTopic req.question,
    confusionLevel := confusionLevelOrDefault req.confusionLevel,
    isAnswered := false,
    answer := none,
    answeredAt := none,
    upvotes := 0,
    upvotedBy := [],
    mergedWith := none,
    mergedCount := 1,
    mergedStudents := [mergedEntry now req] }

/-- The write of `save()` on a document read from the store: the row with the
document's identity becomes the document. -/
def updateDoubt (doubts : List Doubt) (d : Doubt) : List Doubt :=
  doubts.map fun row => if row.id = d.id then d else row

/-- The write of `save()` on a new document. -/
def insertDoubt (doubts : List Doubt) (d : Doubt) : List Doubt :=
  doubts ++ [d]

/-- The write of `session.save()`. -/
def updateSession (sessions : List Session) (s : Session) : List Session :=
  sessions.map fun row => if row.id = s.id then s else row

/-- The call `req.io.to(room).emit(...)`. -/
def World.emit (w : World) (room : String) (payload : Payload) : World :=
  { w with emitted := w.emitted ++ [{ room := room, payload := payload }] }

/-- Lines 57-80 of `submitDoubt`: merge into `mainDoubt = similarDoubts[0]`. -/
def mergeBranch (f : Faults) (now : Int) (req : SubmitDoubtReq)
    (actualSessionId : String) (doubt mainDoubt : Doubt) (w : World) :
    World × Reply SubmitDoubtBody :=
  let mainDoubt1 : Doubt :=
    { mainDoubt with
      mergedCount := mainDoubt.mergedCount + 1,
      mergedStudents := mainDoubt.mergedStudents ++ [mergedEntry now req] }
  if f.mainDoubtSave then (w, .fail 500 storeError) else
  let w1 : World := { w with doubts := updateDoubt w.doubts mainDoubt1 }
  let doubt1 : Doubt := { doubt with mergedWith := some mainDoubt.id }
  if f.doubtSave then (w1, .fail 500 storeError) else
  let w2 : World := { w1 with doubts := insertDoubt w1.doubts doubt1 }
  (w2.emit actualSessionId (.doubtMerged mainDoubt1 mainDoubt1.mergedCount),
    .ok 201 { doubt := mainDoubt1, merged := true })

/-- Lines 84-98 of `submitDoubt`: persist the new doubt and count it. -/
def createBranch (f : Faults) (actualSessionId : String) (session : Session)
    (doubt : Doubt) (w : World) : World × Reply SubmitDoubtBody :=
  if f.doubtSave then (w, .fail 500 storeError) else
  let w1 : World := { w with doubts := insertDoubt w.doubts doubt }
  let session1 : Session :=
    { session with stats := { session.stats with totalDoubts := session.stats.totalDoubts + 1 } }
  if f.sessionSave then (w1, .fail 500 storeError) else
  let w2 : World := { w1 with sessions := updateSession w1.sessions session1 }
  (w2.emit actualSessionId (.newDoubt doubt), .ok 201 { doubt := doubt, merged := false })

/-- A hexadecimal digit, in either letter case. -/
def isHexDigit (c : Char) : Bool :=
  c.isDigit || (decide ('a' ≤ c) && decide (c ≤ 'f')) || (decide ('A' ≤ c) && decide (c ≤ 'F'))

/-- JS `s.toLowerCase()`, on hexadecimal digits. -/
def toLowerCase (s : String) : String :=
  String.mk (s.data.map Char.toLower)

/-- The cast Mongoose applies to a string given where an ObjectId is expected,
by the string form of the ObjectId obtained: 24 hexadecimal digits in any letter
case spell the ObjectId whose string form is their lower-case spelling; on any
other string the cast throws. -/
def castObjectId (s : String) : Option String :=
  if s.length = 24 ∧ s.data.all isHexDigit = true then some (toLowerCase s) else none

/-- The `_id` that `Session.findById(actualSessionId)` queries with. After a
6-character code `actualSessionId` is the `_id` of the session found by the
scan; otherwise it is still the request string, which is cast. -/
def queryId (sessionId actualSessionId : String) : Option String :=
  if sessionId.length = 6 then some actualSessionId else castObjectId actualSessionId

/-- The `error.message` of a failed cast. -/
def castError : String := "Cast to ObjectId failed"

/-- Lines 27-98 of `submitDoubt`, once `actualSessionId` is known.
`Session.findById` finds the row whose `_id` is the one queried with; the doubt,
the matcher and the room are given `actualSessionId` as it stands. -/
def submitResolved (nlp : Nlp) (f : Faults) (now : Int) (req : SubmitDoubtReq)
    (actualSessionId : String) (w : World) : World × Reply SubmitDoubtBody :=
  if f.sessionFindById then (w, .fail 500 storeError) else
  match queryId req.sessionId actualSessionId with
  | none => (w, .fail 500 castError)
  | some objectId =>
  match w.sessions.find? (fun s => decide (s.id = objectId)) with
  | none => (w, .fail 400 "Invalid or inactive session")
  | some session =>
    if !session.isActive then (w, .fail 400 "Invalid or inactive session") else
    let doubt := newDoubt nlp now w.nextId actualSessionId req
    let w1 : World := { w with nextId := w.nextId + 1 }
    if session.settings.autoMergeDoubts then
      if f.findSimilarDoubts then (w1, .fail 500 storeError) else
      match nlp.findSimilarDoubts w1.doubts actualSessionId req.question with
      | mainDoubt :: _ => mergeBranch f now req actualSessionId doubt mainDoubt w1
      | [] => createBranch f actualSessionId session doubt w1
    else createBranch f actualSessionId session doubt w1

/-- The controller `submitDoubt`. -/
def submitDoubt (nlp : Nlp) (f : Faults) (now : Int) (req : SubmitDoubtReq)
    (w : World) : World × Reply SubmitDoubtBody :=
  if req.sessionId.length = 6 ∧ f.sessionFind = true then (w, .fail 500 storeError) else
  match resolveSessionId w.sessions req.sessionId with
  | .error e => (w, .fail 400 e)
  | .ok actualSessionId => submitResolved nlp f now req actualSessionId w

/-- The filter of `getDoubts`, also the glossary's canonical doubt:
`mergedWith: null`. -/
def Doubt.isCanonical (d : Doubt) : Bool :=
  d.mergedWith.isNone

/-- The canonical doubts of a session, in store order. -/
def canonicalDoubts (w : World) (sessionId : String) : List Doubt :=
  w.doubts.filter fun d => decide (d.sessionId = sessionId) && d.isCanonical

/-- JS truthiness of the optional `answer` of the request body. -/
def truthy : Option String → Bool
  | none => false
  | some s => decide (s ≠ "")

/-- The controller `markAnswered`. -/
def markAnswered (f : Faults) (now : Int) (id : Nat) (answer : Option String)
    (w : World) : World × Reply Doubt :=
  if f.doubtFindById then (w, .fail 500 storeError) else
  match w.doubts.find? (fun d => decide (d.id = id)) with
  | none => (w, .fail 404 "Doubt not found")
  | some doubt =>
    let doubt1 : Doubt :=
      { doubt with
        isAnswered := true,
        answeredAt := some now,
        answer := if truthy answer then answer else doubt.answer }
    if f.doubtSave then (w, .fail 500 storeError) else
    let w1 : World := { w with doubts := updateDoubt w.doubts doubt1 }
    if f.sessionFindByIdAndUpdate then (w1, .fail 500 storeError) else
    let w2 : World :=
      { w1 with
        sessions := w1.sessions.map fun s =>
          if s.id = doubt1.sessionId then
            { s with stats := { s.stats with answeredDoubts := s.stats.answeredDoubts + 1 } }
          else s }
    (w2.emit doubt1.sessionId (.doubtAnswered doubt1), .ok 200 doubt1)

/-- The toggle of `upvoteDoubt` (lines 195-203) on the document. -/
def toggleUpvote (doubt : Doubt) (studentId : String) : Doubt :=
  if doubt.upvotedBy.contains studentId then
    { doubt with
      upvotes := doubt.upvotes - 1,
      upvotedBy := doubt.upvotedBy.filter fun id => decide (id ≠ studentId) }
  else
    { doubt with
      upvotes := doubt.upvotes + 1,
      upvotedBy := doubt.upvotedBy ++ [studentId] }

/-- The controller `upvoteDoubt`. -/
def upvoteDoubt (f : Faults) (id : Nat) (studentId : String) (w : World) :
    World × Reply Doubt :=
  if f.doubtFindById then (w, .fail 500 storeError) else
  match w.doubts.find? (fun d => decide (d.id = id)) with
  | none => (w, .fail 404 "Doubt not found")
  | some doubt =>
    let doubt1 := toggleUpvote doubt studentId
    if f.doubtSave then (w, .fail 500 storeError) else
    let w1 : World := { w with doubts := updateDoubt w.doubts doubt1 }
    (w1.emit doubt1.sessionId (.doubtUpvoted doubt1), .ok 200 doubt1)

/-! ## Confusion aggregator -/

/-- The `$match` stage: readings of the session, not older than `fiveMinutesAgo`. -/
def matchStage (sessionId : String) (fiveMinutesAgo : Int) (docs : List Confusion) :
    List Confusion :=
  docs.filter fun c => decide (c.sessionId = sessionId) && decide (fiveMinutesAgo ≤ c.timestamp)

/-- The `$sort: { timestamp: -1 }` stage: newest first, equal timestamps in
store order. -/
def sortStage (docs : List Confusion) : List Confusion :=
  docs.insertionSort fun a b => b.timestamp ≤ a.timestamp

/-- One document entering a `$group` stage: its group's accumulator is stepped,
or a new group is opened. -/
def groupInsert {κ β : Type} [DecidableEq κ] (init : β) (step : β → β) (k : κ) :
    List (κ × β) → List (κ × β)
  | [] => [(k, init)]
  | (k', b) :: rest =>
    if k' = k then (k', step b) :: rest else (k', b) :: groupInsert init step k rest

/-- A `$group` stage with one accumulator, fed the documents in order. -/
def groupStage {α κ β : Type} [DecidableEq κ] (key : α → κ) (init : α → β)
    (step : β → α → β) (docs : List α) : List (κ × β) :=
  docs.foldl (fun acc doc => groupInsert (init doc) (fun b => step b doc) (key doc) acc) []

/-- The pipeline of `Confusion.aggregate([...])`: `$match`, `$sort`,
`$group` by student with `$first` of the level, `$group` by level with
`$sum: 1`. The result is a list of `(_id, count)`. -/
def aggregate (sessionId : String) (fiveMinutesAgo : Int) (docs : List Confusion) :
    List (Int × Nat) :=
  let sorted := sortStage (matchStage sessionId fiveMinutesAgo docs)
  let latest : List (String × Int) :=
    groupStage (fun c => c.studentId) (fun c => c.level) (fun b _ => b) sorted
  groupStage (fun p => p.2) (fun _ => 1) (fun n _ => n + 1) latest

/-- The property names of `levelMap`. -/
inductive LevelName where
  | clear | slight | confused | lost
  deriving DecidableEq, Repr

/-- JS `levelMap[item._id]` for `levelMap = ['clear', 'slight', 'confused',
'lost']`: `undefined` outside 0..3. -/
def levelMap (i : Int) : Option LevelName :=
  if i = 0 then some .clear
  else if i = 1 then some .slight
  else if i = 2 then some .confused
  else if i = 3 then some .lost
  else none

/-- JS `stats[levelName]`. -/
def Stats.get (s : Stats) : LevelName → Nat
  | .clear => s.clear
  | .slight => s.slight
  | .confused => s.confused
  | .lost => s.lost

/-- JS `stats[levelName] = v`. -/
def Stats.set (s : Stats) (name : LevelName) (v : Nat) : Stats :=
  match name with
  | .clear => { s with clear := v }
  | .slight => { s with slight := v }
  | .confused => { s with confused := v }
  | .lost => { s with lost := v }

/-- The zero-filled snapshot. -/
def zeroStats : Stats :=
  { clear := 0, slight := 0, confused := 0, lost := 0, total := 0 }

/-- The body of `recentConfusion.forEach(item => ...)`. -/
def tally (stats : Stats) (item : Int × Nat) : Stats :=
  match levelMap item.1 with
  | some levelName => { stats.set levelName item.2 with total := stats.total + item.2 }
  | none => stats

/-- The method `getConfusionStats`; a throwing aggregation is caught and gives
the zero-filled snapshot. -/
def getConfusionStats (f : Faults) (now : Int) (sessionId : String)
    (confusions : List Confusion) : Stats :=
  if f.confusionAggregate then zeroStats
  else (aggregate sessionId (now - 5 * 60 * 1000) confusions).foldl tally zeroStats

/-- The body of `POST /confusion`. -/
structure SubmitConfusionReq where
  sessionId : String
  studentId : String
  studentName : String
  level : Int
  deriving DecidableEq, Repr

/-- The success body of `submitConfusion`. -/
structure SubmitConfusionBody where
  confusion : Confusion
  stats : Stats
  deriving DecidableEq, Repr

/-- Modelled from the spec: `models/Confusion.model` is not among the sources;
a reading carries the time of its creation as `timestamp`. The other fields are
those of `new Confusion(...)` in `submitConfusion`. -/
def newConfusion (now : Int) (sessionId : String) (req : SubmitConfusionReq) : Confusion :=
  { sessionId := sessionId,
    studentId := req.studentId,
    studentName := req.studentName,
    level := req.level,
    timestamp := now }

/-- The controller `submitConfusion`. -/
def submitConfusion (f : Faults) (now : Int) (req : SubmitConfusionReq) (w : World) :
    World × Reply SubmitConfusionBody :=
  if req.sessionId.length = 6 ∧ f.sessionFind = true then (w, .fail 500 storeError) else
  match resolveSessionId w.sessions req.sessionId with
  | .error e => (w, .fail 400 e)
  | .ok sessionId =>
    let confusion := newConfusion now sessionId req
    if f.confusionSave then (w, .fail 500 storeError) else
    let w1 : World := { w with confusions := w.confusions ++ [confusion] }
    let stats := getConfusionStats f now sessionId w1.confusions
    (w1.emit sessionId (.confusionUpdated stats),
      .ok 201 { confusion := confusion, stats := stats })

/-- The reply of `GET /confusion/:sessionId`: the status and the `error` and
`stats` properties of the JSON body, when present. -/
structure StatsReply where
  status : Nat
  error : Option String
  stats : Option Stats
  deriving DecidableEq, Repr

/-- The controller `getStats`. -/
def getStats (f : Faults) (now : Int) (sessionId : String) (w : World) : StatsReply :=
  if sessionId.length = 6 ∧ f.sessionFind = true then
    { status := 500, error := some storeError, stats := some zeroStats }
  else
    match resolveSessionId w.sessions sessionId with
    | .error e => { status := 404, error := some e, stats := none }
    | .ok actual =>
      { status := 200, error := none,
        stats := some (getConfusionStats f now actual w.confusions) }

/-! ## Session rooms -/

/-- A connected socket and the rooms it has joined through `join-session`
(the private room Socket.IO keeps per socket, named by the socket's own id, is
not a session room and is left out). -/
structure Socket where
  id : String
  rooms : List String
  deriving DecidableEq, Repr

/-- The handler of `join-session`: `socket.join(sessionId)`. -/
def joinSession (socketId sessionId : String) (sockets : List Socket) : List Socket :=
  sockets.map fun s =>
    if s.id = socketId ∧ sessionId ∉ s.rooms then { s with rooms := s.rooms ++ [sessionId] }
    else s

/-- The handler of `leave-session`: `socket.leave(sessionId)`. -/
def leaveSession (socketId sessionId : String) (sockets : List Socket) : List Socket :=
  sockets.map fun s =>
    if s.id = socketId then { s with rooms := s.rooms.filter fun r => decide (r ≠ sessionId) }
    else s

/-- The handler of `disconnect`: the socket is gone, with its memberships. -/
def disconnect (socketId : String) (sockets : List Socket) : List Socket :=
  sockets.filter fun s => decide (s.id ≠ socketId)

/-- The sockets `io.to(room).emit(...)` delivers to: those that are in the room. -/
def receivers (sockets : List Socket) (e : Emission) : List Socket :=
  sockets.filter fun s => s.rooms.contains e.room

/-! ## Runs, store invariants and reading aids -/

/-- A sequence of submits during which no store call throws, each with its own
clock reading. -/
def submitAll (nlp : Nlp) : List (Int × SubmitDoubtReq) → World → World
  | [], w => w
  | (now, req) :: rest, w => submitAll nlp rest (submitDoubt nlp Faults.none now req w).1

/-- The store's keys: session identities are pairwise distinct, doubt identities
are pairwise distinct and were all handed out by the identity generator, and
every session identity is the string form of an ObjectId. -/
def World.WellFormed (w : World) : Prop :=
  (w.sessions.map fun s => s.id).Nodup ∧
  (w.doubts.map fun d => d.id).Nodup ∧
  (∀ d ∈ w.doubts, d.id < w.nextId) ∧
  ∀ i ∈ w.sessions.map (fun s => s.id), castObjectId i = some i

instance (w : World) : Decidable w.WellFormed := by
  unfold World.WellFormed
  infer_instance

/-- The session `sid` is stored and active with the given settings, every
request of `subs` resolves to it, and the store's keys are in order. -/
def Ready (w : World) (sid : String) (settings : Settings)
    (subs : List (Int × SubmitDoubtReq)) : Prop :=
  w.WellFormed ∧
  (∃ S, w.sessions.find? (fun s => decide (s.id = sid)) = some S ∧
    S.isActive = true ∧ S.settings = settings) ∧
  ∀ p ∈ subs, resolveSessionId w.sessions p.2.sessionId = .ok sid

/-- The accumulator of the group with identity `k` in the output of a `$group`
stage, when there is such a group. -/
def lookupKey {κ β : Type} [DecidableEq κ] (k : κ) : List (κ × β) → Option β
  | [] => none
  | (k', b) :: rest => if k' = k then some b else lookupKey k rest

/-- The level each property of the snapshot stands for: clear = 0, slight = 1,
confused = 2, lost = 3. -/
def LevelName.toLevel : LevelName → Int
  | .clear => 0
  | .slight => 1
  | .confused => 2
  | .lost => 3

/-- Whether the reply is the success reply. -/
def Reply.isOk {α : Type} : Reply α → Bool
  | .ok _ _ => true
  | .fail _ _ => false

/-! ## The snapshot, in the words of the specification -/

/-- The readings that count: those of the session whose timestamp is not older
than five minutes before `now`. -/
def windowReadings (now : Int) (sessionId : String) (docs : List Confusion) :
    List Confusion :=
  docs.filter fun c => decide (c.sessionId = sessionId ∧ now - 5 * 60 * 1000 ≤ c.timestamp)

/-- The most recent of a list of readings; among readings of equal timestamp,
the one the store returns first. -/
def newest : List Confusion → Option Confusion
  | [] => none
  | c :: cs =>
    match newest cs with
    | none => some c
    | some b => if c.timestamp < b.timestamp then some b else some c

/-- The most recent reading of a student among `docs`. -/
def latestReading (docs : List Confusion) (studentId : String) : Option Confusion :=
  newest (docs.filter fun c => decide (c.studentId = studentId))

/-- The number of distinct students whose most recent reading in the window has
level `level`. -/
def snapshotCount (now : Int) (sessionId : String) (docs : List Confusion) (level : Int) :
    Nat :=
  (((windowReadings now sessionId docs).map fun c => c.studentId).dedup.filter fun s =>
    decide ((latestReading (windowReadings now sessionId docs) s).map (fun c => c.level) =
      some level)).length

/-! ## Sample data -/

/-- An active session whose identity ends in `ab12cd`. -/
def sessionA : Session :=
  { id := "aaaaaaaaaaaaaaaaaaab12cd", isActive := true,
    settings := { autoMergeDoubts := true },
    stats := { totalDoubts := 0, answeredDoubts := 0 } }

/-- Another active session whose identity ends in `ab12cd`. -/
def sessionB : Session :=
  { id := "bbbbbbbbbbbbbbbbbbab12cd", isActive := true,
    settings := { autoMergeDoubts := true },
    stats := { totalDoubts := 0, answeredDoubts := 0 } }

/-- A matcher within the contract of the similarity matcher: the canonical doubts
of the session that have the same question text, in store order. -/
def sameTextNlp : Nlp :=
  { extractTopic := fun q => q,
    findSimilarDoubts := fun doubts sessionId question =>
      doubts.filter fun d =>
        decide (d.sessionId = sessionId) && d.isCanonical && decide (d.question = question) }

/-- A store holding `sessionA` and nothing else. -/
def world0 : World :=
  { sessions := [sessionA], doubts := [], confusions := [], nextId := 0, emitted := [] }

/-- A first submission, addressed by code. -/
def aliceReq : SubmitDoubtReq :=
  { sessionId := "AB12CD", question := "What is recursion?", studentId := "alice",
    studentName := "Alice", isAnonymous := false, confusionLevel := none }

/-- A second submission with the same text. -/
def bobReq : SubmitDoubtReq :=
  { sessionId := "AB12CD", question := "What is recursion?", studentId := "bob",
    studentName := "Bob", isAnonymous := true, confusionLevel := some 2 }

/-- The state after `aliceReq`. -/
def worldAfterAlice : World :=
  (submitDoubt sameTextNlp Faults.none 1000 aliceReq world0).1

/-- The state after `aliceReq` and `bobReq`. -/
def worldAfterBob : World :=
  (submitDoubt sameTextNlp Faults.none 2000 bobReq worldAfterAlice).1

/-- The doubt created by `aliceReq`. -/
def aliceDoubt : Doubt :=
  newDoubt sameTextNlp 1000 0 sessionA.id aliceReq

/-- The canonical doubt after `bobReq` has been merged into it. -/
def aliceDoubtMerged : Doubt :=
  { aliceDoubt with
    mergedCount := 2,
    mergedStudents := aliceDoubt.mergedStudents ++ [mergedEntry 2000 bobReq] }

/-- The two sample submissions, in order. -/
def sampleSubs : List (Int × SubmitDoubtReq) :=
  [(1000, aliceReq), (2000, bobReq)]

/-- The state after `bob` upvotes the doubt of `aliceReq`. -/
def worldUpvoted : World :=
  (upvoteDoubt Faults.none 0 "bob" worldAfterAlice).1

/-- The state after `bob` upvotes it a second time. -/
def worldUpvotedTwice : World :=
  (upvoteDoubt Faults.none 0 "bob" worldUpvoted).1

/-- Sample readings of `sessionA`, with `now = 1000000`: student `x` reports
level 0 and later level 3 within the window, student `y` reported level 2 more
than five minutes ago and an out-of-range level within the window. -/
def sampleReadings : List Confusion :=
  [ { sessionId := sessionA.id, studentId := "x", studentName := "X", level := 0,
      timestamp := 900000 },
    { sessionId := sessionA.id, studentId := "y", studentName := "Y", level := 2,
      timestamp := 600000 },
    { sessionId := sessionA.id, studentId := "x", studentName := "X", level := 3,
      timestamp := 950000 },
    { sessionId := sessionA.id, studentId := "y", studentName := "Y", level := 7,
      timestamp := 960000 } ]

/-- The fault pattern in which only the second `save()` of a submit (the save of
the submitted doubt) throws. -/
def doubtSaveFails : Faults :=
  { Faults.none with doubtSave := true }

/-- A request to the doubt ledger, with the store calls that throw during it and
the clock reading it sees. -/
inductive Call where
  | submit (f : Faults) (now : Int) (req : SubmitDoubtReq)
  | answer (f : Faults) (now : Int) (id : Nat) (text : Option String)
  | upvote (f : Faults) (id : Nat) (studentId : String)
  deriving DecidableEq, Repr

/-- The state a request leaves behind, whether it succeeds or fails. -/
def Call.run (nlp : Nlp) : Call → World → World
  | .submit f now req, w => (submitDoubt nlp f now req w).1
  | .answer f now id text, w => (markAnswered f now id text w).1
  | .upvote f id studentId, w => (upvoteDoubt f id studentId w).1

/-- The state after a sequence of requests, served one after the other. -/
def runCalls (nlp : Nlp) : List Call → World → World
  | [], w => w
  | c :: cs, w => runCalls nlp cs (c.run nlp w)

/-- A sample history: two submissions of one text, an upvote, a submission whose
second save throws, and an answer. -/
def sampleCalls : List Call :=
  [ .submit Faults.none 1000 aliceReq,
    .submit Faults.none 2000 bobReq,
    .upvote Faults.none 0 "bob",
    .submit doubtSaveFails 3000 bobReq,
    .answer Faults.none 4000 0 (some "A function that calls itself.") ]

/-- A submission that names `sessionA` by its identity, written in upper case. -/
def upperReq : SubmitDoubtReq :=
  { sessionId := "AAAAAAAAAAAAAAAAAAAB12CD", question := "What is a closure?",
    studentId := "carol", studentName := "Carol", isAnonymous := false,
    confusionLevel := none }

/-- A socket that joined the room of `sessionA`, as `SessionContext.jsx` does
with `session._id`. -/
def socketInA : Socket :=
  { id := "socket-2", rooms := [sessionA.id] }

/-! # Properties -/

/-! ## C1: code resolver -/

theorem findByCode_eq_find (sessions : List Session) (C : String) :
    findByCode sessions C = sessions.find? (fun s => s.isActive && codeMatches C s) := by
  unfold findByCode
  rw [List.find?_filter]
  congr 1
  funext s
  cases s.isActive <;> cases codeMatches C s <;> rfl

theorem find?_mem_pred {α : Type} (p : α → Bool) (l : List α) (a : α)
    (h : l.find? p = some a) : a ∈ l ∧ p a = true :=
  ⟨List.mem_of_find?_eq_some h, List.find?_some h⟩

theorem resolveSessionId_code (sessions : List Session) (C : String) (hlen : C.length = 6) :
    resolveSessionId sessions C =
      match sessions.find? (fun s => s.isActive && codeMatches C s) with
      | some session => .ok session.id
      | none => .error "Session not found" := by
  unfold resolveSessionId
  rw [if_pos hlen, findByCode_eq_find]

/-- C1 (amended): for a 6-character code `C`, and a session `S` of the store
(identities pairwise distinct) whose last six characters are `C` up to letter
case, resolving `C` returns `S` exactly when `S` is active and no active session
stored before `S` has the same last six characters; and when no active session
matches `C`, resolving fails with 'Session not found'. -/
theorem resolveSessionId_first_active_match (sessions : List Session) (C : String)
    (hlen : C.length = 6) :
    (∀ (pre post : List Session) (S : Session),
        sessions = pre ++ S :: post →
        (sessions.map fun s => s.id).Nodup →
        toUpperCase C = toUpperCase (sliceLast6 S.id) →
        (resolveSessionId sessions C = .ok S.id ↔
          S.isActive = true ∧ ∀ T ∈ pre, T.isActive = true → codeMatches C T = false)) ∧
    ((∀ T ∈ sessions, T.isActive = true → codeMatches C T = false) →
        resolveSessionId sessions C = .error "Session not found") := by
  refine ⟨?_, ?_⟩
  · intro pre post S hsplit hnodup hC
    have hS : codeMatches C S = true := by simp [codeMatches, hC]
    rw [resolveSessionId_code sessions C hlen]
    subst hsplit
    rw [List.map_append, List.map_cons] at hnodup
    have hpre : ∀ T ∈ pre, T.id ≠ S.id := by
      intro T hT heq
      have := (List.nodup_append.1 hnodup).2.2
      exact this (List.mem_map_of_mem _ hT) (by simp [heq])
    have hpost : ∀ T ∈ post, T.id ≠ S.id := by
      intro T hT heq
      have h2 := (List.nodup_cons.1 (List.nodup_append.1 hnodup).2.1).1
      exact h2 (by rw [← heq]; exact List.mem_map_of_mem _ hT)
    rw [List.find?_append]
    cases hfp : pre.find? (fun s => s.isActive && codeMatches C s) with
    | some T =>
      obtain ⟨hTmem, hTp⟩ := find?_mem_pred _ _ _ hfp
      simp only [Bool.and_eq_true] at hTp
      simp only [Option.or]
      constructor
      · intro h
        simp only [Except.ok.injEq] at h
        exact absurd h (hpre T hTmem)
      · rintro ⟨_, h⟩
        have := h T hTmem hTp.1
        rw [hTp.2] at this
        exact absurd this (by simp)
    | none =>
      have hnone : ∀ T ∈ pre, T.isActive = true → codeMatches C T = false := by
        intro T hT hact
        have := List.find?_eq_none.1 hfp T hT
        simpa [hact] using this
      simp only [Option.or, List.find?_cons, hS, Bool.and_true]
      cases hact : S.isActive with
      | true => simpa using hnone
      | false =>
        simp only [Bool.false_eq_true, false_and, iff_false]
        cases hfq : post.find? (fun s => s.isActive && codeMatches C s) with
        | none => simp
        | some T =>
          simp only [Except.ok.injEq]
          exact hpost T (find?_mem_pred _ _ _ hfq).1
  · intro h
    rw [resolveSessionId_code sessions C hlen]
    have : sessions.find? (fun s => s.isActive && codeMatches C s) = none := by
      rw [List.find?_eq_none]
      intro T hT
      cases hact : T.isActive with
      | true => simp [h T hT hact]
      | false => simp
    rw [this]


/-- C1, instance: with `sessionA` stored first, the code `AB12CD` resolves to it. -/
theorem resolveSessionId_first_active_match_witness :
    ("AB12CD").length = 6 ∧
    (resolveSessionId [sessionA, sessionB] "AB12CD" = .ok sessionA.id ↔
      sessionA.isActive = true ∧
        ∀ T ∈ ([] : List Session), T.isActive = true → codeMatches "AB12CD" T = false) :=
  ⟨by decide,
    (resolveSessionId_first_active_match [sessionA, sessionB] "AB12CD" (by decide)).1
      [] [sessionB] sessionA rfl (by decide) (by decide)⟩

/-- C1 as stated fails: two active sessions with distinct identities share their
last six characters; the code formed from the second resolves to the first. -/
theorem resolveSessionId_shared_code_counterexample :
    ¬ ∀ (sessions : List Session) (S : Session) (C : String),
      S ∈ sessions → (sessions.map fun s => s.id).Nodup → C.length = 6 →
      toUpperCase C = toUpperCase (sliceLast6 S.id) →
      (resolveSessionId sessions C = .ok S.id ↔ S.isActive = true) := by
  intro h
  have h1 := h [sessionA, sessionB] sessionB "AB12CD" (by decide) (by decide) (by decide)
    (by decide)
  have h2 := h1.2 (by decide)
  have h3 : resolveSessionId [sessionA, sessionB] "AB12CD" = .ok sessionA.id := by rfl
  rw [h3, Except.ok.injEq] at h2
  exact absurd h2 (by decide)

/-! ## Shape of a successful submit -/

theorem mergeBranch_ok (f : Faults) (now : Int) (req : SubmitDoubtReq) (actual : String)
    (doubt mainDoubt : Doubt) (w w' : World) (st : Nat) (body : SubmitDoubtBody)
    (h : mergeBranch f now req actual doubt mainDoubt w = (w', .ok st body)) :
    w' = { w with
            doubts := updateDoubt w.doubts
                { mainDoubt with
                  mergedCount := mainDoubt.mergedCount + 1,
                  mergedStudents := mainDoubt.mergedStudents ++ [mergedEntry now req] } ++
              [{ doubt with mergedWith := some mainDoubt.id }],
            emitted := w.emitted ++
              [{ room := actual,
                 payload := .doubtMerged
                   { mainDoubt with
                     mergedCount := mainDoubt.mergedCount + 1,
                     mergedStudents := mainDoubt.mergedStudents ++ [mergedEntry now req] }
                   (mainDoubt.mergedCount + 1) }] } ∧
      st = 201 ∧
      body = { doubt :=
                { mainDoubt with
                  mergedCount := mainDoubt.mergedCount + 1,
                  mergedStudents := mainDoubt.mergedStudents ++ [mergedEntry now req] },
               merged := true } := by
  unfold mergeBranch at h
  by_cases h1 : f.mainDoubtSave = true
  · simp [h1] at h
  · by_cases h2 : f.doubtSave = true
    · simp [h1, h2] at h
    · simp only [h1, h2, Bool.false_eq_true, if_false, Prod.mk.injEq, Reply.ok.injEq] at h
      obtain ⟨hw, hst, hb⟩ := h
      refine ⟨hw.symm, hst.symm, hb.symm⟩

theorem createBranch_ok (f : Faults) (actual : String) (session : Session)
    (doubt : Doubt) (w w' : World) (st : Nat) (body : SubmitDoubtBody)
    (h : createBranch f actual session doubt w = (w', .ok st body)) :
    w' = { w with
            doubts := w.doubts ++ [doubt],
            sessions := updateSession w.sessions
              { session with
                stats := { session.stats with totalDoubts := session.stats.totalDoubts + 1 } },
            emitted := w.emitted ++ [{ room := actual, payload := .newDoubt doubt }] } ∧
      st = 201 ∧ body = { doubt := doubt, merged := false } := by
  unfold createBranch at h
  by_cases h1 : f.doubtSave = true
  · simp [h1] at h
  · by_cases h2 : f.sessionSave = true
    · simp [h1, h2] at h
    · simp only [h1, h2, Bool.false_eq_true, if_false, Prod.mk.injEq, Reply.ok.injEq] at h
      obtain ⟨hw, hst, hb⟩ := h
      refine ⟨hw.symm, hst.symm, hb.symm⟩

/-- What a successful `submitDoubt` went through. -/
theorem submitDoubt_ok_inv (nlp : Nlp) (f : Faults) (now : Int) (req : SubmitDoubtReq)
    (w w' : World) (st : Nat) (body : SubmitDoubtBody)
    (h : submitDoubt nlp f now req w = (w', .ok st body)) :
    ∃ actual objectId session,
      resolveSessionId w.sessions req.sessionId = .ok actual ∧
      queryId req.sessionId actual = some objectId ∧
      w.sessions.find? (fun s => decide (s.id = objectId)) = some session ∧
      session.isActive = true ∧
      ((session.settings.autoMergeDoubts = true ∧
          ∃ mainDoubt rest,
            nlp.findSimilarDoubts w.doubts actual req.question = mainDoubt :: rest ∧
            mergeBranch f now req actual (newDoubt nlp now w.nextId actual req) mainDoubt
              { w with nextId := w.nextId + 1 } = (w', .ok st body)) ∨
        ((session.settings.autoMergeDoubts = false ∨
            nlp.findSimilarDoubts w.doubts actual req.question = []) ∧
          createBranch f actual session (newDoubt nlp now w.nextId actual req)
            { w with nextId := w.nextId + 1 } = (w', .ok st body))) := by
  unfold submitDoubt at h
  split at h
  · simp at h
  · split at h
    · simp at h
    · rename_i actual hres
      refine ⟨actual, ?_⟩
      unfold submitResolved at h
      split at h
      · simp at h
      · cases hq : queryId req.sessionId actual with
        | none => rw [hq] at h; simp at h
        | some objectId =>
        simp only [hq] at h
        cases hfind : w.sessions.find? (fun s => decide (s.id = objectId)) with
        | none => rw [hfind] at h; simp at h
        | some session =>
          simp only [hfind] at h
          refine ⟨objectId, session, hres, rfl, hfind, ?_⟩
          split at h
          · simp at h
          · rename_i hact
            refine ⟨by simpa using hact, ?_⟩
            split at h
            · rename_i hauto
              split at h
              · simp at h
              · cases hsim : nlp.findSimilarDoubts w.doubts actual req.question with
                | nil =>
                  rw [hsim] at h
                  exact Or.inr ⟨Or.inr rfl, h⟩
                | cons mainDoubt rest =>
                  rw [hsim] at h
                  exact Or.inl ⟨hauto, mainDoubt, rest, rfl, h⟩
            · rename_i hauto
              exact Or.inr ⟨Or.inl (by simpa using hauto), h⟩

/-! ## C2: the merge branch and the stored doubts -/

/-- A reply with `merged = true` comes from the merge branch: the rows stored
before are kept, the rows carrying the identity of the top-ranked match become
the match with its count incremented, and the submitted doubt is appended with
`mergedWith` set. -/
theorem submitDoubt_merged_inv (nlp : Nlp) (f : Faults) (now : Int)
    (req : SubmitDoubtReq) (w w' : World) (st : Nat) (body : SubmitDoubtBody)
    (h : submitDoubt nlp f now req w = (w', .ok st body)) (hm : body.merged = true) :
    ∃ actual mainDoubt rest,
      resolveSessionId w.sessions req.sessionId = .ok actual ∧
      nlp.findSimilarDoubts w.doubts actual req.question = mainDoubt :: rest ∧
      w'.doubts =
        (w.doubts.map fun row =>
          if row.id = mainDoubt.id then
            { mainDoubt with
              mergedCount := mainDoubt.mergedCount + 1,
              mergedStudents := mainDoubt.mergedStudents ++ [mergedEntry now req] }
          else row) ++
        [{ newDoubt nlp now w.nextId actual req with mergedWith := some mainDoubt.id }] ∧
      w'.sessions = w.sessions ∧ w'.confusions = w.confusions := by
  obtain ⟨actual, -, session, hres, -, -, -, hbr⟩ :=
    submitDoubt_ok_inv nlp f now req w w' st body h
  rcases hbr with ⟨-, mainDoubt, rest, hsim, hmb⟩ | ⟨-, hcb⟩
  · obtain ⟨hw, -, -⟩ := mergeBranch_ok _ _ _ _ _ _ _ _ _ _ hmb
    refine ⟨actual, mainDoubt, rest, hres, hsim, ?_, ?_, ?_⟩
    all_goals rw [hw]
    rfl
  · obtain ⟨-, -, hb⟩ := createBranch_ok _ _ _ _ _ _ _ _ hcb
    rw [hb] at hm
    exact absurd hm (by simp)

/-- A submit that reaches the merge branch is the run of `mergeBranch`. -/
theorem submitDoubt_eq_mergeBranch (nlp : Nlp) (f : Faults) (now : Int)
    (req : SubmitDoubtReq) (w : World) (actual objectId : String) (session : Session)
    (mainDoubt : Doubt) (rest : List Doubt)
    (hscan : ¬ (req.sessionId.length = 6 ∧ f.sessionFind = true))
    (hres : resolveSessionId w.sessions req.sessionId = .ok actual)
    (hbyId : f.sessionFindById = false)
    (hq : queryId req.sessionId actual = some objectId)
    (hfind : w.sessions.find? (fun s => decide (s.id = objectId)) = some session)
    (hact : session.isActive = true)
    (hauto : session.settings.autoMergeDoubts = true)
    (hmatcher : f.findSimilarDoubts = false)
    (hsim : nlp.findSimilarDoubts w.doubts actual req.question = mainDoubt :: rest) :
    submitDoubt nlp f now req w =
      mergeBranch f now req actual (newDoubt nlp now w.nextId actual req) mainDoubt
        { w with nextId := w.nextId + 1 } := by
  have hna : (!session.isActive) = false := by rw [hact]; rfl
  unfold submitDoubt
  rw [if_neg hscan, hres]
  dsimp only
  unfold submitResolved
  simp only [hbyId, Bool.false_eq_true, if_false, hq, hfind, hna, hmatcher]
  rw [if_pos hauto, hsim]

/-- C2 (amended): a submit that takes the merge branch (the session is found and
active, auto-merge is on, the matcher returns `mainDoubt` first) persists no new
canonical row, whether it then succeeds or fails. The rows stored before the
call stay as they were, except that the rows carrying the identity of
`mainDoubt` become `mainDoubt` with `mergedCount` incremented and the submission
appended to `mergedStudents` (unless that save throws). The only row added is
the submitted doubt with `mergedWith` set to `mainDoubt`, and it is added exactly
when the submit succeeds. Sessions and readings are untouched. -/
theorem submitDoubt_merge_frame (nlp : Nlp) (f : Faults) (now : Int)
    (req : SubmitDoubtReq) (w : World) (actual objectId : String) (session : Session)
    (mainDoubt : Doubt) (rest : List Doubt)
    (hscan : ¬ (req.sessionId.length = 6 ∧ f.sessionFind = true))
    (hres : resolveSessionId w.sessions req.sessionId = .ok actual)
    (hbyId : f.sessionFindById = false)
    (hq : queryId req.sessionId actual = some objectId)
    (hfind : w.sessions.find? (fun s => decide (s.id = objectId)) = some session)
    (hact : session.isActive = true)
    (hauto : session.settings.autoMergeDoubts = true)
    (hmatcher : f.findSimilarDoubts = false)
    (hsim : nlp.findSimilarDoubts w.doubts actual req.question = mainDoubt :: rest) :
    (submitDoubt nlp f now req w).1.doubts =
        (if f.mainDoubtSave = true then w.doubts
          else w.doubts.map fun row =>
            if row.id = mainDoubt.id then
              { mainDoubt with
                mergedCount := mainDoubt.mergedCount + 1,
                mergedStudents := mainDoubt.mergedStudents ++ [mergedEntry now req] }
            else row) ++
        (if (submitDoubt nlp f now req w).2.isOk = true then
          [{ newDoubt nlp now w.nextId actual req with mergedWith := some mainDoubt.id }]
          else []) ∧
    ((submitDoubt nlp f now req w).2.isOk = true ↔
      f.mainDoubtSave = false ∧ f.doubtSave = false) ∧
    ((submitDoubt nlp f now req w).2.isOk = true →
      (submitDoubt nlp f now req w).2 =
        .ok 201
          { doubt :=
              { mainDoubt with
                mergedCount := mainDoubt.mergedCount + 1,
                mergedStudents := mainDoubt.mergedStudents ++ [mergedEntry now req] },
            merged := true }) ∧
    (submitDoubt nlp f now req w).1.sessions = w.sessions ∧
    (submitDoubt nlp f now req w).1.confusions = w.confusions := by
  rw [submitDoubt_eq_mergeBranch nlp f now req w actual objectId session mainDoubt rest
    hscan hres hbyId hq hfind hact hauto hmatcher hsim]
  unfold mergeBranch
  by_cases h1 : f.mainDoubtSave = true
  · simp [h1, Reply.isOk]
  · by_cases h2 : f.doubtSave = true
    · simp [h1, h2, Reply.isOk, updateDoubt]
    · simp [h1, h2, Reply.isOk, updateDoubt, insertDoubt, World.emit]

/-- C2, instance: `bobReq` after `aliceReq` takes the merge branch. When no
store call throws, the doubt of `aliceReq` is updated and the doubt of `bobReq`
is stored with `mergedWith` set; when the save of the submitted doubt throws,
the doubt of `aliceReq` is updated and no row is added. -/
theorem submitDoubt_merge_frame_witness :
    (submitDoubt sameTextNlp Faults.none 2000 bobReq worldAfterAlice).1.doubts =
        [aliceDoubtMerged,
          { newDoubt sameTextNlp 2000 1 sessionA.id bobReq with mergedWith := some 0 }] ∧
    (submitDoubt sameTextNlp doubtSaveFails 2000 bobReq worldAfterAlice).1.doubts =
        [aliceDoubtMerged] ∧
    ((submitDoubt sameTextNlp doubtSaveFails 2000 bobReq worldAfterAlice).2.isOk = true ↔
      doubtSaveFails.mainDoubtSave = false ∧ doubtSaveFails.doubtSave = false) ∧
    ((submitDoubt sameTextNlp Faults.none 2000 bobReq worldAfterAlice).2.isOk = true ↔
      Faults.none.mainDoubtSave = false ∧ Faults.none.doubtSave = false) :=
  ⟨by decide, by decide,
    (submitDoubt_merge_frame sameTextNlp doubtSaveFails 2000 bobReq worldAfterAlice
      sessionA.id sessionA.id
      { sessionA with stats := { totalDoubts := 1, answeredDoubts := 0 } } aliceDoubt []
      (by decide) rfl rfl rfl (by decide) rfl rfl rfl (by decide)).2.1,
    (submitDoubt_merge_frame sameTextNlp Faults.none 2000 bobReq worldAfterAlice
      sessionA.id sessionA.id
      { sessionA with stats := { totalDoubts := 1, answeredDoubts := 0 } } aliceDoubt []
      (by decide) rfl rfl rfl (by decide) rfl rfl rfl (by decide)).2.1⟩

/-- C2 as stated fails: the merging submit `bobReq` stores a second row (the
submitted doubt, with `mergedWith` set), so the stored rows are not the rows
from before the call. -/
theorem submitDoubt_merge_persists_row_counterexample :
    ¬ ∀ (nlp : Nlp) (f : Faults) (now : Int) (req : SubmitDoubtReq) (w w' : World)
        (st : Nat) (body : SubmitDoubtBody),
      submitDoubt nlp f now req w = (w', .ok st body) → body.merged = true →
      (w'.doubts.map fun d => d.id) = (w.doubts.map fun d => d.id) := by
  intro h
  have h1 := h sameTextNlp Faults.none 2000 bobReq worldAfterAlice worldAfterBob 201
    { doubt := aliceDoubtMerged, merged := true } (by decide) rfl
  exact absurd h1 (by decide)

/-! ## C4: `totalDoubts` -/

theorem find?_updateSession_same (sessions : List Session) (a : String) (s s1 : Session)
    (hfind : sessions.find? (fun r => decide (r.id = a)) = some s) (hid : s1.id = a) :
    (updateSession sessions s1).find? (fun r => decide (r.id = a)) = some s1 := by
  induction sessions with
  | nil => simp at hfind
  | cons x xs ih =>
    unfold updateSession at ih ⊢
    rw [List.find?_cons] at hfind
    rw [List.map_cons, List.find?_cons]
    by_cases hx : x.id = a
    · simp [hx, hid]
    · have hx1 : ¬ x.id = s1.id := by rw [hid]; exact hx
      simp only [hx, decide_False] at hfind
      simp only [hx1, if_false, hx, decide_False]
      exact ih hfind

theorem find?_updateSession_other (sessions : List Session) (a : String) (s1 : Session)
    (hid : s1.id ≠ a) :
    (updateSession sessions s1).find? (fun r => decide (r.id = a)) =
      sessions.find? (fun r => decide (r.id = a)) := by
  induction sessions with
  | nil => rfl
  | cons x xs ih =>
    unfold updateSession at ih ⊢
    rw [List.map_cons, List.find?_cons, List.find?_cons]
    by_cases hx : x.id = s1.id
    · have hxa : ¬ x.id = a := by rw [hx]; exact hid
      simp only [hx, if_true, hid, decide_False, hxa]
      exact ih
    · simp only [hx, if_false]
      rw [ih]

/-- C4: after a successful submit, the session the request resolved to (the one
`Session.findById` returned) has `totalDoubts` one higher when the reply says
`merged = false` and unchanged when it says `merged = true`; the row found under
any other identity is the same as before. -/
theorem submitDoubt_totalDoubts (nlp : Nlp) (f : Faults) (now : Int)
    (req : SubmitDoubtReq) (w w' : World) (st : Nat) (body : SubmitDoubtBody)
    (h : submitDoubt nlp f now req w = (w', .ok st body)) :
    ∃ actual objectId session session',
      resolveSessionId w.sessions req.sessionId = .ok actual ∧
      queryId req.sessionId actual = some objectId ∧
      w.sessions.find? (fun s => decide (s.id = objectId)) = some session ∧
      w'.sessions.find? (fun s => decide (s.id = objectId)) = some session' ∧
      session'.stats.totalDoubts =
        session.stats.totalDoubts + (if body.merged = true then 0 else 1) ∧
      ∀ other, other ≠ objectId →
        w'.sessions.find? (fun s => decide (s.id = other)) =
          w.sessions.find? (fun s => decide (s.id = other)) := by
  obtain ⟨actual, objectId, session, hres, hq, hfind, -, hbr⟩ :=
    submitDoubt_ok_inv nlp f now req w w' st body h
  have hsid : session.id = objectId := by simpa using List.find?_some hfind
  rcases hbr with ⟨-, mainDoubt, rest, -, hmb⟩ | ⟨-, hcb⟩
  · obtain ⟨hw, -, hb⟩ := mergeBranch_ok _ _ _ _ _ _ _ _ _ _ hmb
    refine ⟨actual, objectId, session, session, hres, hq, hfind, ?_, ?_, ?_⟩
    · rw [hw]; exact hfind
    · rw [hb]; simp
    · intro other _; rw [hw]
  · obtain ⟨hw, -, hb⟩ := createBranch_ok _ _ _ _ _ _ _ _ hcb
    refine ⟨actual, objectId, session,
      { session with
        stats := { session.stats with totalDoubts := session.stats.totalDoubts + 1 } },
      hres, hq, hfind, ?_, ?_, ?_⟩
    · rw [hw]
      exact find?_updateSession_same w.sessions objectId session _ hfind hsid
    · rw [hb]; simp
    · intro other hne
      rw [hw]
      exact find?_updateSession_other w.sessions other _ (by rw [hsid]; exact Ne.symm hne)

/-- C4, instance: the creating submit `aliceReq` takes `totalDoubts` from 0 to 1. -/
theorem submitDoubt_totalDoubts_witness :
    submitDoubt sameTextNlp Faults.none 1000 aliceReq world0 =
        (worldAfterAlice, .ok 201 { doubt := aliceDoubt, merged := false }) ∧
    ∃ actual objectId session session',
      resolveSessionId world0.sessions aliceReq.sessionId = .ok actual ∧
      queryId aliceReq.sessionId actual = some objectId ∧
      world0.sessions.find? (fun s => decide (s.id = objectId)) = some session ∧
      worldAfterAlice.sessions.find? (fun s => decide (s.id = objectId)) = some session' ∧
      session'.stats.totalDoubts =
        session.stats.totalDoubts +
          (if (SubmitDoubtBody.mk aliceDoubt false).merged = true then 0 else 1) ∧
      ∀ other, other ≠ objectId →
        worldAfterAlice.sessions.find? (fun s => decide (s.id = other)) =
          world0.sessions.find? (fun s => decide (s.id = other)) :=
  ⟨by decide,
    submitDoubt_totalDoubts sameTextNlp Faults.none 1000 aliceReq world0 worldAfterAlice
      201 { doubt := aliceDoubt, merged := false } (by decide)⟩

/-! ## C3: repeated submits of one text -/

theorem map_id_updateSession (sessions : List Session) (s1 : Session) :
    (updateSession sessions s1).map (fun s => s.id) = sessions.map fun s => s.id := by
  unfold updateSession
  rw [List.map_map]
  apply List.map_congr_left
  intro r _
  by_cases h : r.id = s1.id <;> simp [h]

theorem map_id_updateDoubt (doubts : List Doubt) (d1 : Doubt) :
    (updateDoubt doubts d1).map (fun d => d.id) = doubts.map fun d => d.id := by
  unfold updateDoubt
  rw [List.map_map]
  apply List.map_congr_left
  intro r _
  by_cases h : r.id = d1.id <;> simp [h]

theorem eq_of_nodup_id {α κ : Type} (key : α → κ) (l : List α) (hn : (l.map key).Nodup)
    (a b : α) (ha : a ∈ l) (hb : b ∈ l) (hk : key a = key b) : a = b :=
  List.inj_on_of_nodup_map hn ha hb hk

/-- What `resolveSessionId` reads of a session: identity and active flag. -/
theorem resolveSessionId_congr (l1 l2 : List Session) (x : String)
    (h : l1.map (fun s => (s.id, s.isActive)) = l2.map fun s => (s.id, s.isActive)) :
    resolveSessionId l1 x = resolveSessionId l2 x := by
  have key : ∀ l : List Session,
      (findByCode l x).map (fun s => s.id) =
        ((l.map fun s => (s.id, s.isActive)).find?
          (fun p => p.2 && decide (toUpperCase (sliceLast6 p.1) = toUpperCase x))).map
          fun p => p.1 := by
    intro l
    rw [findByCode_eq_find, List.find?_map, Option.map_map]
    rfl
  have hr : ∀ l : List Session, resolveSessionId l x =
      if x.length = 6 then
        match (findByCode l x).map (fun s => s.id) with
        | some i => .ok i
        | none => .error "Session not found"
      else .ok x := by
    intro l
    unfold resolveSessionId
    cases findByCode l x <;> rfl
  rw [hr l1, hr l2, key l1, key l2, h]

theorem view_updateSession (sessions : List Session) (s1 : Session)
    (h : ∀ r ∈ sessions, r.id = s1.id → r.isActive = s1.isActive) :
    (updateSession sessions s1).map (fun s => (s.id, s.isActive)) =
      sessions.map fun s => (s.id, s.isActive) := by
  unfold updateSession
  rw [List.map_map]
  apply List.map_congr_left
  intro r hr
  by_cases hid : r.id = s1.id
  · simp [hid, h r hr hid]
  · simp [hid]

theorem queryId_of_wellFormed (w : World) (raw sid : String) (S : Session)
    (hwf : w.WellFormed)
    (hfind : w.sessions.find? (fun s => decide (s.id = sid)) = some S) :
    queryId raw sid = some sid := by
  have hS : S.id = sid := by simpa using List.find?_some hfind
  have hmem : S ∈ w.sessions := List.mem_of_find?_eq_some hfind
  have hc := hwf.2.2.2 sid (by rw [← hS]; exact List.mem_map_of_mem (fun s => s.id) hmem)
  unfold queryId
  split
  · rfl
  · exact hc

theorem submitDoubt_none_create (nlp : Nlp) (now : Int) (req : SubmitDoubtReq) (w : World)
    (sid : String) (S : Session)
    (hres : resolveSessionId w.sessions req.sessionId = .ok sid)
    (hfind : w.sessions.find? (fun s => decide (s.id = sid)) = some S)
    (hq : queryId req.sessionId sid = some sid)
    (hact : S.isActive = true)
    (hbr : S.settings.autoMergeDoubts = false ∨
      nlp.findSimilarDoubts w.doubts sid req.question = []) :
    (submitDoubt nlp Faults.none now req w).1 =
      { sessions := updateSession w.sessions
          { S with stats := { S.stats with totalDoubts := S.stats.totalDoubts + 1 } },
        doubts := w.doubts ++ [newDoubt nlp now w.nextId sid req],
        confusions := w.confusions,
        nextId := w.nextId + 1,
        emitted := w.emitted ++
          [{ room := sid, payload := .newDoubt (newDoubt nlp now w.nextId sid req) }] } := by
  unfold submitDoubt
  simp only [Faults.none, Bool.false_eq_true, and_false, if_false, hres]
  unfold submitResolved
  have hna : (!S.isActive) = false := by rw [hact]; rfl
  simp only [Bool.false_eq_true, if_false, hq, hfind, hna]
  rcases hbr with hb | hb
  · rw [if_neg (by rw [hb]; exact Bool.false_ne_true)]
    rfl
  · rw [hb]
    cases S.settings.autoMergeDoubts <;> rfl

theorem submitDoubt_none_merge (nlp : Nlp) (now : Int) (req : SubmitDoubtReq) (w : World)
    (sid : String) (S : Session) (mainDoubt : Doubt) (rest : List Doubt)
    (hres : resolveSessionId w.sessions req.sessionId = .ok sid)
    (hfind : w.sessions.find? (fun s => decide (s.id = sid)) = some S)
    (hq : queryId req.sessionId sid = some sid)
    (hact : S.isActive = true)
    (hauto : S.settings.autoMergeDoubts = true)
    (hsim : nlp.findSimilarDoubts w.doubts sid req.question = mainDoubt :: rest) :
    (submitDoubt nlp Faults.none now req w).1 =
      { sessions := w.sessions,
        doubts := updateDoubt w.doubts
            { mainDoubt with
              mergedCount := mainDoubt.mergedCount + 1,
              mergedStudents := mainDoubt.mergedStudents ++ [mergedEntry now req] } ++
          [{ newDoubt nlp now w.nextId sid req with mergedWith := some mainDoubt.id }],
        confusions := w.confusions,
        nextId := w.nextId + 1,
        emitted := w.emitted ++
          [{ room := sid,
             payload := .doubtMerged
               { mainDoubt with
                 mergedCount := mainDoubt.mergedCount + 1,
                 mergedStudents := mainDoubt.mergedStudents ++ [mergedEntry now req] }
               (mainDoubt.mergedCount + 1) }] } := by
  unfold submitDoubt
  simp only [Faults.none, Bool.false_eq_true, and_false, if_false, hres]
  unfold submitResolved
  have hna : (!S.isActive) = false := by rw [hact]; rfl
  simp only [Bool.false_eq_true, if_false, hq, hfind, hna]
  rw [if_pos hauto, hsim]
  rfl

theorem filter_updateDoubt (P : Doubt → Bool) (l : List Doubt) (d1 : Doubt)
    (h1 : P d1 = true) (h2 : ∀ r ∈ l, r.id = d1.id → P r = true) :
    (updateDoubt l d1).filter P = updateDoubt (l.filter P) d1 := by
  induction l with
  | nil => rfl
  | cons x xs ih =>
    have ih1 := ih (fun r hr => h2 r (List.mem_cons_of_mem _ hr))
    unfold updateDoubt at ih1 ⊢
    rw [List.map_cons]
    by_cases hx : x.id = d1.id
    · have hPx := h2 x (List.mem_cons_self _ _) hx
      rw [if_pos hx, List.filter_cons_of_pos h1, List.filter_cons_of_pos hPx, List.map_cons,
        if_pos hx, ih1]
    · rw [if_neg hx]
      by_cases hPx : P x = true
      · rw [List.filter_cons_of_pos hPx, List.filter_cons_of_pos hPx, List.map_cons,
          if_neg hx, ih1]
      · rw [List.filter_cons_of_neg hPx, List.filter_cons_of_neg hPx, ih1]

theorem wellFormed_step (w : World) (sessions1 : List Session) (doubts1 : List Doubt)
    (d : Doubt) (emitted1 : List Emission) (hwf : w.WellFormed)
    (hs : (sessions1.map fun s => s.id) = w.sessions.map fun s => s.id)
    (hd : (doubts1.map fun d => d.id) = w.doubts.map fun d => d.id)
    (hid : d.id = w.nextId) :
    World.WellFormed
      { sessions := sessions1, doubts := doubts1 ++ [d], confusions := w.confusions,
        nextId := w.nextId + 1, emitted := emitted1 } := by
  obtain ⟨h1, h2, h3, h4⟩ := hwf
  have h3' : ∀ i ∈ w.doubts.map (fun d => d.id), i < w.nextId := by
    intro i hi
    obtain ⟨r, hr, rfl⟩ := List.mem_map.1 hi
    exact h3 r hr
  refine ⟨by rw [hs]; exact h1, ?_, ?_, by rw [hs]; exact h4⟩
  · show ((doubts1 ++ [d]).map fun d => d.id).Nodup
    rw [List.map_append, hd, List.map_singleton, hid]
    refine List.Nodup.append h2 (List.nodup_singleton _) ?_
    intro i hi hi'
    rw [List.mem_singleton] at hi'
    exact absurd (h3' i hi) (by omega)
  · intro r hr
    show r.id < w.nextId + 1
    rcases List.mem_append.1 hr with hr | hr
    · have : r.id ∈ doubts1.map (fun d => d.id) := List.mem_map_of_mem _ hr
      rw [hd] at this
      exact Nat.lt_succ_of_lt (h3' _ this)
    · rw [List.mem_singleton] at hr
      rw [hr, hid]
      exact Nat.lt_succ_self _

theorem ready_tail (w : World) (sid : String) (settings : Settings)
    (p : Int × SubmitDoubtReq) (subs : List (Int × SubmitDoubtReq))
    (h : Ready w sid settings (p :: subs)) : Ready w sid settings subs :=
  ⟨h.1, h.2.1, fun q hq => h.2.2 q (List.mem_cons_of_mem _ hq)⟩

theorem ready_merge_step (w : World) (sid : String) (settings : Settings)
    (subs : List (Int × SubmitDoubtReq)) (d1 d : Doubt) (emitted1 : List Emission)
    (h : Ready w sid settings subs) (hid : d.id = w.nextId) :
    Ready
      { sessions := w.sessions, doubts := updateDoubt w.doubts d1 ++ [d],
        confusions := w.confusions, nextId := w.nextId + 1, emitted := emitted1 }
      sid settings subs :=
  ⟨wellFormed_step w w.sessions _ d emitted1 h.1 rfl (map_id_updateDoubt _ _) hid, h.2.1, h.2.2⟩

theorem ready_create_step (w : World) (sid : String) (settings : Settings)
    (subs : List (Int × SubmitDoubtReq)) (S : Session) (stats1 : SessionStats) (d : Doubt)
    (emitted1 : List Emission) (h : Ready w sid settings subs)
    (hfind : w.sessions.find? (fun s => decide (s.id = sid)) = some S)
    (hid : d.id = w.nextId) :
    Ready
      { sessions := updateSession w.sessions { S with stats := stats1 },
        doubts := w.doubts ++ [d],
        confusions := w.confusions, nextId := w.nextId + 1, emitted := emitted1 }
      sid settings subs := by
  obtain ⟨hwf, ⟨S0, hfind0, hact0, hset0⟩, hres⟩ := h
  have hS : S0 = S := by rw [hfind] at hfind0; exact (Option.some.inj hfind0).symm
  subst hS
  have hSid : S0.id = sid := by simpa using List.find?_some hfind
  have hSmem : S0 ∈ w.sessions := List.mem_of_find?_eq_some hfind
  have hview : (updateSession w.sessions { S0 with stats := stats1 }).map
      (fun s => (s.id, s.isActive)) = w.sessions.map fun s => (s.id, s.isActive) := by
    apply view_updateSession
    intro r hr hrid
    have : r = S0 := eq_of_nodup_id (fun s => s.id) w.sessions hwf.1 r S0 hr hSmem hrid
    rw [this]
  refine ⟨wellFormed_step w _ w.doubts d emitted1 hwf (map_id_updateSession _ _) rfl hid,
    ⟨{ S0 with stats := stats1 }, ?_, hact0, hset0⟩, ?_⟩
  · exact find?_updateSession_same w.sessions sid S0 _ hfind hSid
  · intro p hp
    show resolveSessionId (updateSession w.sessions { S0 with stats := stats1 }) _ = _
    rw [resolveSessionId_congr _ w.sessions _ hview]
    exact hres p hp

theorem mem_canonicalDoubts (w : World) (sid : String) (d : Doubt) :
    d ∈ canonicalDoubts w sid ↔ d ∈ w.doubts ∧ d.sessionId = sid ∧ d.isCanonical = true := by
  unfold canonicalDoubts
  simp [List.mem_filter]

theorem canonicalDoubts_create (w : World) (sid : String) (sessions1 : List Session)
    (d : Doubt) (n : Nat) (emitted1 : List Emission)
    (hs : d.sessionId = sid) (hc : d.isCanonical = true) :
    canonicalDoubts
      { sessions := sessions1, doubts := w.doubts ++ [d], confusions := w.confusions,
        nextId := n, emitted := emitted1 } sid = canonicalDoubts w sid ++ [d] := by
  unfold canonicalDoubts
  simp [List.filter_append, List.filter_cons, hs, hc]

theorem canonicalDoubts_merge (w : World) (sid : String) (d1 d : Doubt) (n : Nat)
    (emitted1 : List Emission) (hwf : w.WellFormed)
    (hm : ∃ m ∈ canonicalDoubts w sid, m.id = d1.id)
    (h1s : d1.sessionId = sid) (h1c : d1.isCanonical = true) (hc : d.isCanonical = false) :
    canonicalDoubts
      { sessions := w.sessions, doubts := updateDoubt w.doubts d1 ++ [d],
        confusions := w.confusions, nextId := n, emitted := emitted1 } sid =
      updateDoubt (canonicalDoubts w sid) d1 := by
  obtain ⟨m, hmc, hmid⟩ := hm
  obtain ⟨hmw, hms, hmcan⟩ := (mem_canonicalDoubts w sid m).1 hmc
  unfold canonicalDoubts
  show List.filter _ (updateDoubt w.doubts d1 ++ [d]) = _
  rw [List.filter_append, filter_updateDoubt]
  · simp [List.filter_cons, hc]
  · simp [h1s, h1c]
  · intro r hr hrid
    have : r = m := eq_of_nodup_id (fun d => d.id) w.doubts hwf.2.1 r m hr hmw
      (by show r.id = m.id; rw [hrid, hmid])
    rw [this]
    simp [hms, hmcan]

theorem submitAll_merge_aux (nlp : Nlp) (sid q : String) (settings : Settings)
    (hauto : settings.autoMergeDoubts = true)
    (hc1 : ∀ doubts sid q, ∀ d ∈ nlp.findSimilarDoubts doubts sid q,
      d ∈ doubts ∧ d.sessionId = sid ∧ d.isCanonical = true)
    (hc2 : ∀ doubts sid q,
      (∃ d ∈ doubts, d.sessionId = sid ∧ d.isCanonical = true ∧ d.question = q) →
      nlp.findSimilarDoubts doubts sid q ≠ []) :
    ∀ (subs : List (Int × SubmitDoubtReq)) (w : World) (k : Nat) (d : Doubt),
      Ready w sid settings subs → (∀ p ∈ subs, p.2.question = q) →
      canonicalDoubts w sid = [d] → d.question = q →
      d.mergedCount = (k : Int) → d.mergedStudents.length = k →
      ∃ d', canonicalDoubts (submitAll nlp subs w) sid = [d'] ∧
        d'.mergedCount = ((k + subs.length : Nat) : Int) ∧
        d'.mergedStudents.length = k + subs.length := by
  intro subs
  induction subs with
  | nil =>
    intro w k d _ _ hcan _ hcnt hlen
    exact ⟨d, hcan, by simpa using hcnt, by simpa using hlen⟩
  | cons p rest ih =>
    intro w k d hready hq hcan hdq hcnt hlen
    obtain ⟨now, req⟩ := p
    obtain ⟨hwf, ⟨S, hfind, hact, hset⟩, hres⟩ := id hready
    have hreq : req.question = q := hq (now, req) (List.mem_cons_self _ _)
    have hresq := hres (now, req) (List.mem_cons_self _ _)
    have hdmem : d ∈ canonicalDoubts w sid := by rw [hcan]; exact List.mem_singleton_self d
    obtain ⟨hdw, hds, hdc⟩ := (mem_canonicalDoubts w sid d).1 hdmem
    have hne := hc2 w.doubts sid req.question ⟨d, hdw, hds, hdc, by rw [hdq, hreq]⟩
    cases hsim : nlp.findSimilarDoubts w.doubts sid req.question with
    | nil => exact absurd hsim hne
    | cons m tail =>
      have hm := hc1 w.doubts sid req.question m (by rw [hsim]; exact List.mem_cons_self _ _)
      have hmd : m = d := by
        have : m ∈ canonicalDoubts w sid := (mem_canonicalDoubts w sid m).2 hm
        rw [hcan] at this
        exact List.mem_singleton.1 this
      subst hmd
      have hstep := submitDoubt_none_merge nlp now req w sid S m tail hresq hfind
        (queryId_of_wellFormed w req.sessionId sid S hwf hfind) hact
        (by rw [hset]; exact hauto) hsim
      show ∃ d', canonicalDoubts (submitAll nlp rest (submitDoubt nlp Faults.none now req w).1)
        sid = [d'] ∧ _
      rw [hstep]
      have hready1 := ready_merge_step w sid settings rest
        { m with
          mergedCount := m.mergedCount + 1,
          mergedStudents := m.mergedStudents ++ [mergedEntry now req] }
        { newDoubt nlp now w.nextId sid req with mergedWith := some m.id }
        (w.emitted ++
          [{ room := sid,
             payload := .doubtMerged
               { m with
                 mergedCount := m.mergedCount + 1,
                 mergedStudents := m.mergedStudents ++ [mergedEntry now req] }
               (m.mergedCount + 1) }])
        (ready_tail w sid settings (now, req) rest hready) rfl
      have hcan1 := canonicalDoubts_merge w sid
        { m with
          mergedCount := m.mergedCount + 1,
          mergedStudents := m.mergedStudents ++ [mergedEntry now req] }
        { newDoubt nlp now w.nextId sid req with mergedWith := some m.id }
        (w.nextId + 1)
        (w.emitted ++
          [{ room := sid,
             payload := .doubtMerged
               { m with
                 mergedCount := m.mergedCount + 1,
                 mergedStudents := m.mergedStudents ++ [mergedEntry now req] }
               (m.mergedCount + 1) }])
        hwf ⟨m, hdmem, rfl⟩ hds hdc rfl
      rw [hcan] at hcan1
      have hcan2 : updateDoubt [m]
          { m with
            mergedCount := m.mergedCount + 1,
            mergedStudents := m.mergedStudents ++ [mergedEntry now req] } =
          [{ m with
            mergedCount := m.mergedCount + 1,
            mergedStudents := m.mergedStudents ++ [mergedEntry now req] }] := by
        simp [updateDoubt]
      rw [hcan2] at hcan1
      obtain ⟨d', h1, h2, h3⟩ := ih _ (k + 1) _ hready1
        (fun p hp => hq p (List.mem_cons_of_mem _ hp)) hcan1 hdq
        (by show m.mergedCount + 1 = ((k + 1 : Nat) : Int); rw [hcnt]; push_cast; rfl)
        (by show (m.mergedStudents ++ [mergedEntry now req]).length = k + 1
            rw [List.length_append, hlen]; rfl)
      refine ⟨d', h1, ?_, ?_⟩
      · rw [h2, List.length_cons]; congr 1; omega
      · rw [h3, List.length_cons]; omega

theorem submitAll_create_aux (nlp : Nlp) (sid : String) (settings : Settings)
    (hauto : settings.autoMergeDoubts = false) :
    ∀ (subs : List (Int × SubmitDoubtReq)) (w : World),
      Ready w sid settings subs →
      (submitAll nlp subs w).WellFormed ∧
      ∃ L : List Doubt,
        canonicalDoubts (submitAll nlp subs w) sid = canonicalDoubts w sid ++ L ∧
        L.length = subs.length ∧
        ∀ d ∈ L, d.mergedCount = 1 ∧ d.mergedStudents.length = 1 := by
  intro subs
  induction subs with
  | nil =>
    intro w hready
    exact ⟨hready.1, [], by simp [submitAll], rfl, by simp⟩
  | cons p rest ih =>
    intro w hready
    obtain ⟨now, req⟩ := p
    obtain ⟨hwf, ⟨S, hfind, hact, hset⟩, hres⟩ := id hready
    have hresq := hres (now, req) (List.mem_cons_self _ _)
    have hstep := submitDoubt_none_create nlp now req w sid S hresq hfind
      (queryId_of_wellFormed w req.sessionId sid S hwf hfind) hact
      (Or.inl (by rw [hset]; exact hauto))
    show (submitAll nlp rest (submitDoubt nlp Faults.none now req w).1).WellFormed ∧
      ∃ L, canonicalDoubts (submitAll nlp rest (submitDoubt nlp Faults.none now req w).1)
        sid = _ ∧ _
    rw [hstep]
    have hready1 := ready_create_step w sid settings rest S
      { S.stats with totalDoubts := S.stats.totalDoubts + 1 }
      (newDoubt nlp now w.nextId sid req)
      (w.emitted ++
        [{ room := sid, payload := .newDoubt (newDoubt nlp now w.nextId sid req) }])
      (ready_tail w sid settings (now, req) rest hready) hfind rfl
    obtain ⟨hwf1, L, hL, hlen, hall⟩ := ih _ hready1
    refine ⟨hwf1, newDoubt nlp now w.nextId sid req :: L, ?_, ?_, ?_⟩
    · rw [hL, canonicalDoubts_create w sid _ (newDoubt nlp now w.nextId sid req) _ _ rfl rfl,
        List.append_assoc]
      rfl
    · simp [hlen]
    · intro d hd
      rcases List.mem_cons.1 hd with hd | hd
      · rw [hd]; exact ⟨rfl, rfl⟩
      · exact hall d hd

theorem canonicalDoubts_eq_nil (w : World) (sid : String)
    (hempty : ∀ d ∈ w.doubts, d.sessionId ≠ sid) : canonicalDoubts w sid = [] := by
  unfold canonicalDoubts
  rw [List.filter_eq_nil_iff]
  intro d hd
  simp [hempty d hd]

theorem nodup_id_canonicalDoubts (w : World) (sid : String) (hwf : w.WellFormed) :
    ((canonicalDoubts w sid).map fun d => d.id).Nodup := by
  unfold canonicalDoubts
  exact List.Nodup.sublist (List.Sublist.map _ (List.filter_sublist _)) hwf.2.1

/-- C3: `N >= 1` submits of one question text, all resolving to one active
session that has no doubts yet, none failing. With auto-merge on, and a matcher
that returns only canonical doubts of the session and returns at least one when
such a doubt has the very text, the session ends with exactly one canonical
doubt, with `mergedCount = N` and `N` entries in `mergedStudents`. With
auto-merge off it ends with `N` canonical doubts of pairwise distinct identity,
each with `mergedCount = 1` and one entry. -/
theorem submitAll_identical_text (nlp : Nlp) (w : World) (sid q : String) (S : Session)
    (subs : List (Int × SubmitDoubtReq))
    (hwf : w.WellFormed)
    (hfind : w.sessions.find? (fun s => decide (s.id = sid)) = some S)
    (hact : S.isActive = true)
    (hres : ∀ p ∈ subs, resolveSessionId w.sessions p.2.sessionId = .ok sid)
    (hq : ∀ p ∈ subs, p.2.question = q)
    (hempty : ∀ d ∈ w.doubts, d.sessionId ≠ sid)
    (hN : 1 ≤ subs.length) :
    (S.settings.autoMergeDoubts = true →
      (∀ doubts sid q, ∀ d ∈ nlp.findSimilarDoubts doubts sid q,
        d ∈ doubts ∧ d.sessionId = sid ∧ d.isCanonical = true) →
      (∀ doubts sid q,
        (∃ d ∈ doubts, d.sessionId = sid ∧ d.isCanonical = true ∧ d.question = q) →
        nlp.findSimilarDoubts doubts sid q ≠ []) →
      ∃ d, canonicalDoubts (submitAll nlp subs w) sid = [d] ∧ d.mergedWith = none ∧
        d.mergedCount = (subs.length : Int) ∧ d.mergedStudents.length = subs.length) ∧
    (S.settings.autoMergeDoubts = false →
      (canonicalDoubts (submitAll nlp subs w) sid).length = subs.length ∧
      ((canonicalDoubts (submitAll nlp subs w) sid).map fun d => d.id).Nodup ∧
      ∀ d ∈ canonicalDoubts (submitAll nlp subs w) sid,
        d.mergedWith = none ∧ d.mergedCount = 1 ∧ d.mergedStudents.length = 1) := by
  have hready : Ready w sid S.settings subs := ⟨hwf, ⟨S, hfind, hact, rfl⟩, hres⟩
  have hnil := canonicalDoubts_eq_nil w sid hempty
  have hcanon : ∀ (w1 : World) (d : Doubt), d ∈ canonicalDoubts w1 sid → d.mergedWith = none := by
    intro w1 d hd
    have := ((mem_canonicalDoubts w1 sid d).1 hd).2.2
    unfold Doubt.isCanonical at this
    exact Option.isNone_iff_eq_none.1 this
  constructor
  · intro hauto hc1 hc2
    cases subs with
    | nil => simp at hN
    | cons p rest =>
      obtain ⟨now, req⟩ := p
      have hresq := hres (now, req) (List.mem_cons_self _ _)
      have hsim : nlp.findSimilarDoubts w.doubts sid req.question = [] := by
        cases hs : nlp.findSimilarDoubts w.doubts sid req.question with
        | nil => rfl
        | cons m tail =>
          have hm := hc1 w.doubts sid req.question m (by rw [hs]; exact List.mem_cons_self _ _)
          exact absurd hm.2.1 (hempty m hm.1)
      have hstep := submitDoubt_none_create nlp now req w sid S hresq hfind
        (queryId_of_wellFormed w req.sessionId sid S hwf hfind) hact (Or.inr hsim)
      have hready1 := ready_create_step w sid S.settings rest S
        { S.stats with totalDoubts := S.stats.totalDoubts + 1 }
        (newDoubt nlp now w.nextId sid req)
        (w.emitted ++
          [{ room := sid, payload := .newDoubt (newDoubt nlp now w.nextId sid req) }])
        (ready_tail w sid S.settings (now, req) rest hready) hfind rfl
      have hcan1 := canonicalDoubts_create w sid
        (updateSession w.sessions
          { S with stats := { S.stats with totalDoubts := S.stats.totalDoubts + 1 } })
        (newDoubt nlp now w.nextId sid req) (w.nextId + 1)
        (w.emitted ++
          [{ room := sid, payload := .newDoubt (newDoubt nlp now w.nextId sid req) }])
        rfl rfl
      rw [hnil, List.nil_append] at hcan1
      obtain ⟨d, h1, h2, h3⟩ := submitAll_merge_aux nlp sid q S.settings hauto hc1 hc2 rest _ 1
        (newDoubt nlp now w.nextId sid req) hready1
        (fun p hp => hq p (List.mem_cons_of_mem _ hp)) hcan1
        (hq (now, req) (List.mem_cons_self _ _)) rfl rfl
      have hrun : submitAll nlp ((now, req) :: rest) w =
          submitAll nlp rest (submitDoubt nlp Faults.none now req w).1 := rfl
      rw [hrun, hstep]
      refine ⟨d, h1, hcanon _ d (by rw [h1]; exact List.mem_singleton_self d), ?_, ?_⟩
      · rw [h2, List.length_cons]; congr 1; omega
      · rw [h3, List.length_cons]; omega
  · intro hauto
    obtain ⟨hwf1, L, hL, hlen, hall⟩ := submitAll_create_aux nlp sid S.settings hauto subs w hready
    rw [hnil, List.nil_append] at hL
    refine ⟨by rw [hL, hlen], nodup_id_canonicalDoubts _ sid hwf1, ?_⟩
    intro d hd
    refine ⟨hcanon _ d hd, ?_⟩
    rw [hL] at hd
    exact hall d hd

theorem sameTextNlp_returns_canonical :
    ∀ (doubts : List Doubt) (sid q : String),
      ∀ d ∈ sameTextNlp.findSimilarDoubts doubts sid q,
        d ∈ doubts ∧ d.sessionId = sid ∧ d.isCanonical = true := by
  intro doubts sid q d hd
  simp only [sameTextNlp, List.mem_filter, Bool.and_eq_true, decide_eq_true_eq] at hd
  exact ⟨hd.1, hd.2.1.1, hd.2.1.2⟩

theorem sameTextNlp_matches_identical :
    ∀ (doubts : List Doubt) (sid q : String),
      (∃ d ∈ doubts, d.sessionId = sid ∧ d.isCanonical = true ∧ d.question = q) →
      sameTextNlp.findSimilarDoubts doubts sid q ≠ [] := by
  intro doubts sid q ⟨d, hd, hs, hc, hq⟩ hnil
  have : d ∈ sameTextNlp.findSimilarDoubts doubts sid q := by
    simp only [sameTextNlp, List.mem_filter, Bool.and_eq_true, decide_eq_true_eq]
    exact ⟨hd, ⟨hs, hc⟩, hq⟩
  rw [hnil] at this
  exact absurd this (List.not_mem_nil _)

/-- C3, instance: the two sample submissions under auto-merge. -/
theorem submitAll_identical_text_witness :
    ∃ d, canonicalDoubts (submitAll sameTextNlp sampleSubs world0) sessionA.id = [d] ∧
      d.mergedWith = none ∧ d.mergedCount = (sampleSubs.length : Int) ∧
      d.mergedStudents.length = sampleSubs.length :=
  (submitAll_identical_text sameTextNlp world0 sessionA.id "What is recursion?" sessionA
    sampleSubs (by decide) (by decide) rfl
    (by intro p hp
        simp only [sampleSubs, List.mem_cons, List.mem_singleton, List.not_mem_nil,
          or_false] at hp
        rcases hp with rfl | rfl <;> rfl)
    (by decide) (by decide) (by decide)).1
    rfl sameTextNlp_returns_canonical sameTextNlp_matches_identical

/-! ## C5: the upvote toggle -/

theorem toggleUpvote_twice (d : Doubt) (s : String) :
    (toggleUpvote (toggleUpvote d s) s).upvotes = d.upvotes ∧
    (∀ x, x ∈ (toggleUpvote (toggleUpvote d s) s).upvotedBy ↔ x ∈ d.upvotedBy) ∧
    { toggleUpvote (toggleUpvote d s) s with upvotes := d.upvotes, upvotedBy := d.upvotedBy } = d := by
  by_cases hs : s ∈ d.upvotedBy
  · have h1 : d.upvotedBy.contains s = true := by simpa using hs
    have h2 : (d.upvotedBy.filter fun id => decide (id ≠ s)).contains s = false := by
      simp [List.mem_filter]
    simp only [toggleUpvote, h1, h2, if_true, Bool.false_eq_true, if_false]
    refine ⟨by omega, ?_, ?_⟩
    · intro x
      simp only [List.mem_append, List.mem_filter, List.mem_singleton, decide_eq_true_eq]
      constructor
      · rintro (⟨hx, -⟩ | rfl)
        · exact hx
        · exact hs
      · intro hx
        by_cases hxs : x = s
        · exact Or.inr hxs
        · exact Or.inl ⟨hx, hxs⟩
    · trivial
  · have h1 : d.upvotedBy.contains s = false := by simpa using hs
    have h2 : (d.upvotedBy ++ [s]).contains s = true := by simp
    simp only [toggleUpvote, h1, h2, if_true, Bool.false_eq_true, if_false]
    refine ⟨by omega, ?_, ?_⟩
    · intro x
      simp only [List.mem_filter, List.mem_append, List.mem_singleton, decide_eq_true_eq]
      constructor
      · rintro ⟨hx | hx, hne⟩
        · exact hx
        · exact absurd hx hne
      · intro hx
        exact ⟨Or.inl hx, fun hxs => hs (hxs ▸ hx)⟩
    · trivial

theorem find?_updateDoubt_same (doubts : List Doubt) (a : Nat) (d d1 : Doubt)
    (hfind : doubts.find? (fun r => decide (r.id = a)) = some d) (hid : d1.id = a) :
    (updateDoubt doubts d1).find? (fun r => decide (r.id = a)) = some d1 := by
  induction doubts with
  | nil => simp at hfind
  | cons x xs ih =>
    unfold updateDoubt at ih ⊢
    rw [List.find?_cons] at hfind
    rw [List.map_cons, List.find?_cons]
    by_cases hx : x.id = a
    · simp [hx, hid]
    · have hx1 : ¬ x.id = d1.id := by rw [hid]; exact hx
      simp only [hx, decide_False] at hfind
      simp only [hx1, if_false, hx, decide_False]
      exact ih hfind

theorem upvoteDoubt_ok_inv (f : Faults) (id : Nat) (s : String) (w w' : World) (st : Nat)
    (body : Doubt) (h : upvoteDoubt f id s w = (w', .ok st body)) :
    ∃ d, w.doubts.find? (fun r => decide (r.id = id)) = some d ∧
      body = toggleUpvote d s ∧
      w' = { w with
        doubts := updateDoubt w.doubts (toggleUpvote d s),
        emitted := w.emitted ++
          [{ room := (toggleUpvote d s).sessionId, payload := .doubtUpvoted (toggleUpvote d s) }] } := by
  unfold upvoteDoubt at h
  split at h
  · simp at h
  · split at h
    · simp at h
    · rename_i d hfind
      dsimp only at h
      split at h
      · simp at h
      · simp only [Prod.mk.injEq, Reply.ok.injEq] at h
        exact ⟨d, hfind, h.2.2.symm, h.1.symm⟩

theorem toggleUpvote_id (d : Doubt) (s : String) : (toggleUpvote d s).id = d.id := by
  unfold toggleUpvote
  split <;> rfl

/-- C5: two successful upvote requests of one student on one doubt leave the
stored doubt with its original `upvotes`, the original members of `upvotedBy`,
and every other field as it was. -/
theorem upvoteDoubt_twice (f1 f2 : Faults) (id : Nat) (s : String) (w w1 w2 : World)
    (st1 st2 : Nat) (d d1 d2 : Doubt)
    (hd : w.doubts.find? (fun r => decide (r.id = id)) = some d)
    (h1 : upvoteDoubt f1 id s w = (w1, .ok st1 d1))
    (h2 : upvoteDoubt f2 id s w1 = (w2, .ok st2 d2)) :
    w2.doubts.find? (fun r => decide (r.id = id)) = some d2 ∧
    d2.upvotes = d.upvotes ∧
    (∀ x, x ∈ d2.upvotedBy ↔ x ∈ d.upvotedBy) ∧
    { d2 with upvotes := d.upvotes, upvotedBy := d.upvotedBy } = d := by
  obtain ⟨d', hd', hb1, hw1⟩ := upvoteDoubt_ok_inv f1 id s w w1 st1 d1 h1
  have hdd : d' = d := by rw [hd] at hd'; exact (Option.some.inj hd').symm
  subst hdd
  have hdid : d'.id = id := by simpa using List.find?_some hd
  have hfind1 : w1.doubts.find? (fun r => decide (r.id = id)) = some (toggleUpvote d' s) := by
    rw [hw1]
    exact find?_updateDoubt_same w.doubts id d' _ hd (by rw [toggleUpvote_id, hdid])
  obtain ⟨d'', hd'', hb2, hw2⟩ := upvoteDoubt_ok_inv f2 id s w1 w2 st2 d2 h2
  rw [hfind1] at hd''
  have hd2 : d2 = toggleUpvote (toggleUpvote d' s) s := by
    rw [hb2, ← Option.some.inj hd'']
  obtain ⟨t1, t2, t3⟩ := toggleUpvote_twice d' s
  refine ⟨?_, by rw [hd2]; exact t1, by rw [hd2]; exact t2, by rw [hd2]; exact t3⟩
  rw [hw2, hd2, ← Option.some.inj hd'']
  exact find?_updateDoubt_same w1.doubts id _ _ hfind1
    (by rw [toggleUpvote_id, toggleUpvote_id, hdid])

/-- C5, instance: `bob` upvotes the doubt of `aliceReq` twice. -/
theorem upvoteDoubt_twice_witness :
    worldUpvotedTwice.doubts.find? (fun r => decide (r.id = 0)) =
        some (toggleUpvote (toggleUpvote aliceDoubt "bob") "bob") ∧
    (toggleUpvote (toggleUpvote aliceDoubt "bob") "bob").upvotes = aliceDoubt.upvotes ∧
    (∀ x, x ∈ (toggleUpvote (toggleUpvote aliceDoubt "bob") "bob").upvotedBy ↔
      x ∈ aliceDoubt.upvotedBy) ∧
    { toggleUpvote (toggleUpvote aliceDoubt "bob") "bob" with
      upvotes := aliceDoubt.upvotes, upvotedBy := aliceDoubt.upvotedBy } = aliceDoubt :=
  upvoteDoubt_twice Faults.none Faults.none 0 "bob" worldAfterAlice worldUpvoted
    worldUpvotedTwice 200 200 aliceDoubt (toggleUpvote aliceDoubt "bob")
    (toggleUpvote (toggleUpvote aliceDoubt "bob") "bob") (by decide) (by decide) (by decide)

/-! ## The `$group` stage -/

theorem keys_groupInsert {κ β : Type} [DecidableEq κ] (init : β) (step : β → β) (k : κ)
    (acc : List (κ × β)) :
    (groupInsert init step k acc).map Prod.fst =
      if k ∈ acc.map Prod.fst then acc.map Prod.fst else acc.map Prod.fst ++ [k] := by
  induction acc with
  | nil => simp [groupInsert]
  | cons x xs ih =>
    obtain ⟨k', b⟩ := x
    unfold groupInsert
    by_cases h : k' = k
    · simp [h]
    · have h' : ¬ k = k' := fun e => h e.symm
      rw [if_neg h, List.map_cons, ih]
      by_cases hm : k ∈ xs.map Prod.fst
      · simp [hm]
      · simp [hm, h']

theorem lookupKey_groupInsert {κ β : Type} [DecidableEq κ] (init : β) (step : β → β)
    (k k' : κ) (acc : List (κ × β)) :
    lookupKey k' (groupInsert init step k acc) =
      if k' = k then
        some (match lookupKey k acc with
          | some b => step b
          | none => init)
      else lookupKey k' acc := by
  induction acc with
  | nil =>
    by_cases h : k' = k
    · simp [groupInsert, lookupKey, h]
    · have h' : ¬ k = k' := fun e => h e.symm
      simp [groupInsert, lookupKey, h, h']
  | cons x xs ih =>
    obtain ⟨k0, b⟩ := x
    unfold groupInsert
    by_cases h0 : k0 = k
    · subst h0
      by_cases h : k' = k0
      · simp [lookupKey, h]
      · have h' : ¬ k0 = k' := fun e => h e.symm
        simp [lookupKey, h, h']
    · rw [if_neg h0]
      by_cases h : k' = k
      · subst h
        simp [lookupKey, h0, ih]
      · by_cases h1 : k0 = k'
        · simp [lookupKey, h0, h, h1]
        · simp [lookupKey, h0, h, h1, ih]

theorem lookupKey_eq_none {κ β : Type} [DecidableEq κ] (k : κ) (l : List (κ × β)) :
    lookupKey k l = none ↔ k ∉ l.map Prod.fst := by
  induction l with
  | nil => simp [lookupKey]
  | cons x xs ih =>
    obtain ⟨k0, b⟩ := x
    by_cases h : k0 = k
    · simp [lookupKey, h]
    · have h' : ¬ k = k0 := fun e => h e.symm
      simp [lookupKey, h, h', ih]

theorem mem_of_lookupKey {κ β : Type} [DecidableEq κ] (k : κ) (v : β) (l : List (κ × β))
    (h : lookupKey k l = some v) : (k, v) ∈ l := by
  induction l with
  | nil => simp [lookupKey] at h
  | cons x xs ih =>
    obtain ⟨k0, b⟩ := x
    by_cases h0 : k0 = k
    · simp only [lookupKey, h0, if_true, Option.some.injEq] at h
      rw [h0, h]
      exact List.mem_cons_self _ _
    · simp only [lookupKey, h0, if_false] at h
      exact List.mem_cons_of_mem _ (ih h)

theorem lookupKey_of_mem {κ β : Type} [DecidableEq κ] (k : κ) (v : β) (l : List (κ × β))
    (hn : (l.map Prod.fst).Nodup) (h : (k, v) ∈ l) : lookupKey k l = some v := by
  induction l with
  | nil => simp at h
  | cons x xs ih =>
    obtain ⟨k0, b⟩ := x
    rw [List.map_cons, List.nodup_cons] at hn
    rcases List.mem_cons.1 h with h | h
    · simp only [Prod.mk.injEq] at h
      simp [lookupKey, h.1, h.2]
    · have hk : k ∈ xs.map Prod.fst := List.mem_map_of_mem Prod.fst h
      have h0 : ¬ k0 = k := fun e => hn.1 (by rw [e]; exact hk)
      simp only [lookupKey, h0, if_false]
      exact ih hn.2 h

theorem nodup_keys_foldl_groupInsert {α κ β : Type} [DecidableEq κ] (key : α → κ)
    (init : α → β) (step : β → α → β) (docs : List α) (acc : List (κ × β))
    (hacc : (acc.map Prod.fst).Nodup) :
    ((docs.foldl
      (fun acc doc => groupInsert (init doc) (fun b => step b doc) (key doc) acc) acc).map
      Prod.fst).Nodup := by
  induction docs generalizing acc with
  | nil => exact hacc
  | cons a rest ih =>
    rw [List.foldl_cons]
    apply ih
    rw [keys_groupInsert]
    by_cases hm : key a ∈ acc.map Prod.fst
    · rw [if_pos hm]; exact hacc
    · rw [if_neg hm]
      exact List.Nodup.append hacc (List.nodup_singleton _)
        (by intro x hx hx'; rw [List.mem_singleton] at hx'; exact hm (hx' ▸ hx))

theorem nodup_keys_groupStage {α κ β : Type} [DecidableEq κ] (key : α → κ)
    (init : α → β) (step : β → α → β) (docs : List α) :
    ((groupStage key init step docs).map Prod.fst).Nodup :=
  nodup_keys_foldl_groupInsert key init step docs [] List.nodup_nil

/-! ## C7: the total of the snapshot -/

theorem levelMap_toLevel (name : LevelName) : levelMap name.toLevel = some name := by
  cases name <;> rfl

theorem levelMap_eq_some (i : Int) (name : LevelName) (h : levelMap i = some name) :
    i = name.toLevel := by
  unfold levelMap at h
  split at h
  · cases h; assumption
  · split at h
    · cases h; assumption
    · split at h
      · cases h; assumption
      · split at h
        · cases h; assumption
        · cases h

theorem get_set (s : Stats) (a b : LevelName) (v : Nat) :
    (s.set a v).get b = if a = b then v else s.get b := by
  cases a <;> cases b <;> rfl

theorem get_tally (stats : Stats) (item : Int × Nat) (name : LevelName) :
    (tally stats item).get name = if item.1 = name.toLevel then item.2 else stats.get name := by
  unfold tally
  cases h : levelMap item.1 with
  | none =>
    have : ¬ item.1 = name.toLevel := by
      intro e
      rw [e, levelMap_toLevel] at h
      cases h
    simp [this]
  | some a =>
    have ha := levelMap_eq_some _ _ h
    have hget : ∀ (s : Stats) (t : Nat), Stats.get { s with total := t } name = s.get name := by
      intro s t; cases name <;> rfl
    simp only [hget, get_set]
    by_cases hab : a = name
    · simp [hab, ha]
    · have : ¬ item.1 = name.toLevel := by
        intro e
        apply hab
        have h2 := levelMap_toLevel name
        rw [← e, h] at h2
        exact Option.some.inj h2
      simp [hab, this]

theorem total_tally (stats : Stats) (item : Int × Nat) :
    (tally stats item).total =
      stats.total + (if (levelMap item.1).isSome then item.2 else 0) := by
  unfold tally
  cases h : levelMap item.1 with
  | none => simp
  | some a => cases a <;> simp [Stats.set]

/-- The sum of the four counts. -/
theorem sum_tally (stats : Stats) (item : Int × Nat)
    (h0 : ∀ name, levelMap item.1 = some name → stats.get name = 0) :
    (tally stats item).clear + (tally stats item).slight + (tally stats item).confused +
        (tally stats item).lost =
      stats.clear + stats.slight + stats.confused + stats.lost +
        (if (levelMap item.1).isSome then item.2 else 0) := by
  unfold tally
  cases h : levelMap item.1 with
  | none => simp
  | some a =>
    have := h0 a h
    cases a <;> simp only [Stats.get] at this <;> simp [Stats.set, this] <;> omega

theorem foldl_tally_total (counts : List (Int × Nat)) (stats : Stats)
    (hn : (counts.map Prod.fst).Nodup)
    (h0 : ∀ item ∈ counts, ∀ name, levelMap item.1 = some name → stats.get name = 0)
    (hs : stats.total = stats.clear + stats.slight + stats.confused + stats.lost) :
    (counts.foldl tally stats).total =
      (counts.foldl tally stats).clear + (counts.foldl tally stats).slight +
        (counts.foldl tally stats).confused + (counts.foldl tally stats).lost := by
  induction counts generalizing stats with
  | nil => exact hs
  | cons item rest ih =>
    rw [List.foldl_cons]
    rw [List.map_cons, List.nodup_cons] at hn
    apply ih _ hn.2
    · intro item' hitem' name hname
      rw [get_tally]
      have hne : ¬ item.1 = name.toLevel := by
        intro e
        apply hn.1
        rw [e, ← levelMap_eq_some _ _ hname]
        exact List.mem_map_of_mem Prod.fst hitem'
      rw [if_neg hne]
      exact h0 item' (List.mem_cons_of_mem _ hitem') name hname
    · rw [total_tally, sum_tally stats item (h0 item (List.mem_cons_self _ _)), hs]

/-- The `forEach` over the output of the pipeline keeps `total` equal to the sum
of the four counts. -/
theorem aggregate_tally_total (sessionId : String) (fiveMinutesAgo : Int)
    (docs : List Confusion) :
    ((aggregate sessionId fiveMinutesAgo docs).foldl tally zeroStats).total =
      ((aggregate sessionId fiveMinutesAgo docs).foldl tally zeroStats).clear +
        ((aggregate sessionId fiveMinutesAgo docs).foldl tally zeroStats).slight +
        ((aggregate sessionId fiveMinutesAgo docs).foldl tally zeroStats).confused +
        ((aggregate sessionId fiveMinutesAgo docs).foldl tally zeroStats).lost := by
  apply foldl_tally_total
  · exact nodup_keys_groupStage _ _ _ _
  · intro item _ name _
    cases name <;> rfl
  · rfl

/-- C7: whatever readings are stored, whatever their levels, and whether or not
the aggregation throws, the snapshot of `getConfusionStats` has
`total = clear + slight + confused + lost`. -/
theorem getConfusionStats_total (f : Faults) (now : Int) (sessionId : String)
    (confusions : List Confusion) :
    (getConfusionStats f now sessionId confusions).total =
      (getConfusionStats f now sessionId confusions).clear +
        (getConfusionStats f now sessionId confusions).slight +
        (getConfusionStats f now sessionId confusions).confused +
        (getConfusionStats f now sessionId confusions).lost := by
  unfold getConfusionStats
  split
  · rfl
  · exact aggregate_tally_total sessionId (now - 5 * 60 * 1000) confusions

/-! ## C6: the counts of the snapshot -/

theorem newest_mem (l : List Confusion) (b : Confusion) (h : newest l = some b) :
    b ∈ l ∧ ∀ a ∈ l, a.timestamp ≤ b.timestamp := by
  induction l generalizing b with
  | nil => simp [newest] at h
  | cons c cs ih =>
    unfold newest at h
    cases hn : newest cs with
    | none =>
      rw [hn] at h
      simp only [Option.some.injEq] at h
      subst h
      have hcs : cs = [] := by
        cases cs with
        | nil => rfl
        | cons x xs =>
          unfold newest at hn
          cases h2 : newest xs <;> rw [h2] at hn
          · simp at hn
          · dsimp only at hn
            split at hn <;> simp at hn
      subst hcs
      simp
    | some b0 =>
      rw [hn] at h
      obtain ⟨hb0, hmax⟩ := ih b0 hn
      dsimp only at h
      split at h
      · rename_i hlt
        simp only [Option.some.injEq] at h
        subst h
        refine ⟨List.mem_cons_of_mem _ hb0, ?_⟩
        intro a ha
        rcases List.mem_cons.1 ha with rfl | ha
        · omega
        · exact hmax a ha
      · rename_i hlt
        simp only [Option.some.injEq] at h
        subst h
        refine ⟨List.mem_cons_self _ _, ?_⟩
        intro a ha
        rcases List.mem_cons.1 ha with rfl | ha
        · omega
        · have := hmax a ha
          omega

theorem find?_orderedInsert (p : Confusion → Bool) (c : Confusion) (L : List Confusion)
    (hs : L.Sorted fun a b => b.timestamp ≤ a.timestamp) :
    (L.orderedInsert (fun a b => b.timestamp ≤ a.timestamp) c).find? p =
      if p c = true then
        match L.find? p with
        | none => some c
        | some b => if c.timestamp < b.timestamp then some b else some c
      else L.find? p := by
  induction L with
  | nil =>
    by_cases hp : p c = true <;> simp [hp]
  | cons x xs ih =>
    have hsx := List.sorted_cons.1 hs
    rw [List.orderedInsert]
    by_cases hr : x.timestamp ≤ c.timestamp
    · rw [if_pos hr]
      by_cases hp : p c = true
      · rw [if_pos hp, List.find?_cons_of_pos _ hp]
        cases hf : (x :: xs).find? p with
        | none => rfl
        | some b =>
          have hb : b ∈ x :: xs := List.mem_of_find?_eq_some hf
          have hle : b.timestamp ≤ x.timestamp := by
            rcases List.mem_cons.1 hb with rfl | hb
            · exact le_refl _
            · exact hsx.1 b hb
          have : ¬ c.timestamp < b.timestamp := by omega
          simp [this]
      · rw [if_neg hp, List.find?_cons_of_neg _ hp]
    · rw [if_neg hr]
      by_cases hpx : p x = true
      · rw [List.find?_cons_of_pos _ hpx, List.find?_cons_of_pos _ hpx]
        have : c.timestamp < x.timestamp := by omega
        by_cases hp : p c = true <;> simp [hp, this]
      · rw [List.find?_cons_of_neg _ hpx, List.find?_cons_of_neg _ hpx]
        exact ih hsx.2

theorem find?_sortStage (p : Confusion → Bool) (l : List Confusion) :
    (sortStage l).find? p = newest (l.filter p) := by
  induction l with
  | nil => rfl
  | cons c cs ih =>
    unfold sortStage at ih ⊢
    haveI : IsTotal Confusion (fun a b => b.timestamp ≤ a.timestamp) :=
      ⟨fun a b => le_total b.timestamp a.timestamp⟩
    haveI : IsTrans Confusion (fun a b => b.timestamp ≤ a.timestamp) :=
      ⟨fun a b c hab hbc => le_trans hbc hab⟩
    rw [List.insertionSort, find?_orderedInsert p c _ (List.sorted_insertionSort _ _), ih]
    by_cases hp : p c = true
    · rw [if_pos hp, List.filter_cons_of_pos hp]
      rfl
    · rw [if_neg hp, List.filter_cons_of_neg hp]

theorem lookupKey_foldl_first {α κ β : Type} [DecidableEq κ] (key : α → κ) (init : α → β)
    (k : κ) (docs : List α) (acc : List (κ × β)) :
    lookupKey k
        (docs.foldl (fun acc doc => groupInsert (init doc) (fun b => b) (key doc) acc) acc) =
      match lookupKey k acc with
      | some b => some b
      | none => (docs.find? fun a => decide (key a = k)).map init := by
  induction docs generalizing acc with
  | nil => cases h : lookupKey k acc <;> simp [h]
  | cons a rest ih =>
    rw [List.foldl_cons, ih, lookupKey_groupInsert]
    by_cases h : k = key a
    · subst h
      cases lookupKey (key a) acc <;> simp
    · have h' : ¬ key a = k := fun e => h e.symm
      rw [if_neg h]
      cases lookupKey k acc
      · simp [List.find?_cons, h']
      · rfl

theorem lookupKey_foldl_count {α κ : Type} [DecidableEq κ] (key : α → κ)
    (k : κ) (docs : List α) (acc : List (κ × Nat)) :
    lookupKey k
        (docs.foldl (fun acc doc => groupInsert 1 (fun n => n + 1) (key doc) acc) acc) =
      match lookupKey k acc with
      | some n => some (n + docs.countP fun a => decide (key a = k))
      | none =>
        if docs.countP (fun a => decide (key a = k)) = 0 then none
        else some (docs.countP fun a => decide (key a = k)) := by
  induction docs generalizing acc with
  | nil => cases h : lookupKey k acc <;> simp [h]
  | cons a rest ih =>
    rw [List.foldl_cons, ih, lookupKey_groupInsert]
    by_cases h : k = key a
    · subst h
      cases lookupKey (key a) acc
      · simp only [List.countP_cons, decide_True, if_true]
        rw [if_neg (Nat.succ_ne_zero _)]
        simp only [if_true, Option.some.injEq]
        omega
      · simp only [List.countP_cons, decide_True, if_true, Option.some.injEq]
        exact Nat.add_right_comm _ _ _
    · have h' : ¬ key a = k := fun e => h e.symm
      rw [if_neg h]
      cases lookupKey k acc <;> simp [List.countP_cons, h']

theorem foldl_tally_get (counts : List (Int × Nat)) (stats : Stats) (name : LevelName)
    (hn : (counts.map Prod.fst).Nodup) :
    (counts.foldl tally stats).get name =
      (lookupKey name.toLevel counts).getD (stats.get name) := by
  induction counts generalizing stats with
  | nil => rfl
  | cons item rest ih =>
    obtain ⟨i, c⟩ := item
    rw [List.map_cons, List.nodup_cons] at hn
    rw [List.foldl_cons, ih _ hn.2, get_tally]
    by_cases h : i = name.toLevel
    · have hnone : lookupKey name.toLevel rest = none := by
        rw [lookupKey_eq_none, ← h]
        exact hn.1
      simp [lookupKey, h, hnone]
    · simp [lookupKey, h]

theorem matchStage_eq_windowReadings (now : Int) (sessionId : String)
    (docs : List Confusion) :
    matchStage sessionId (now - 5 * 60 * 1000) docs = windowReadings now sessionId docs := by
  unfold matchStage windowReadings
  congr 1
  funext c
  by_cases h1 : c.sessionId = sessionId <;>
    by_cases h2 : now - 5 * 60 * 1000 ≤ c.timestamp <;> simp [h1, h2]

theorem lookupKey_latest (sorted : List Confusion) (s : String) :
    lookupKey s (groupStage (fun c : Confusion => c.studentId) (fun c => c.level)
        (fun b _ => b) sorted) =
      (sorted.find? fun c => decide (c.studentId = s)).map fun c => c.level := by
  unfold groupStage
  rw [lookupKey_foldl_first]
  rfl

theorem mem_keys_latest (W : List Confusion) (s : String) :
    s ∈ (groupStage (fun c : Confusion => c.studentId) (fun c => c.level)
        (fun b _ => b) (sortStage W)).map Prod.fst ↔
      s ∈ (W.map fun c => c.studentId).dedup := by
  rw [List.mem_dedup, ← not_iff_not, ← lookupKey_eq_none, lookupKey_latest, find?_sortStage,
    Option.map_eq_none']
  constructor
  · intro h hmem
    obtain ⟨a, ha, has⟩ := List.mem_map.1 hmem
    have hne : W.filter (fun c => decide (c.studentId = s)) ≠ [] := by
      intro hnil
      have : a ∈ W.filter (fun c => decide (c.studentId = s)) := by
        rw [List.mem_filter]
        exact ⟨ha, by simpa using has⟩
      rw [hnil] at this
      exact List.not_mem_nil _ this
    cases hl : W.filter (fun c => decide (c.studentId = s)) with
    | nil => exact hne hl
    | cons x xs =>
      rw [hl] at h
      unfold newest at h
      cases h2 : newest xs <;> rw [h2] at h
      · simp at h
      · dsimp only at h
        split at h <;> simp at h
  · intro h
    cases hn : newest (W.filter fun c => decide (c.studentId = s)) with
    | none => rfl
    | some b =>
      exfalso
      apply h
      have hb := (newest_mem _ b hn).1
      rw [List.mem_filter] at hb
      exact List.mem_map.2 ⟨b, hb.1, by simpa using hb.2⟩

/-- C6: when the aggregation does not throw, the count of each level in the
snapshot is the number of distinct students whose most recent reading, among the
session's readings not older than five minutes before `now`, has that level; and
the snapshot is the one computed from those readings alone, so an older reading
contributes nothing. -/
theorem getConfusionStats_counts (f : Faults) (now : Int) (sessionId : String)
    (confusions : List Confusion) (hf : f.confusionAggregate = false) :
    (∀ name : LevelName,
      (getConfusionStats f now sessionId confusions).get name =
        snapshotCount now sessionId confusions name.toLevel) ∧
    getConfusionStats f now sessionId confusions =
      getConfusionStats f now sessionId
        (confusions.filter fun c => decide (now - 5 * 60 * 1000 ≤ c.timestamp)) := by
  constructor
  · intro name
    unfold getConfusionStats
    rw [hf, if_neg Bool.false_ne_true]
    unfold aggregate
    dsimp only
    rw [foldl_tally_get _ _ _ (nodup_keys_groupStage _ _ _ _), matchStage_eq_windowReadings]
    generalize hW : windowReadings now sessionId confusions = W
    have hcount : lookupKey name.toLevel
        (groupStage (fun p : String × Int => p.2) (fun _ => 1) (fun n _ => n + 1)
          (groupStage (fun c : Confusion => c.studentId) (fun c => c.level)
            (fun b _ => b) (sortStage W))) =
        if (groupStage (fun c : Confusion => c.studentId) (fun c => c.level)
            (fun b _ => b) (sortStage W)).countP
              (fun p => decide (p.2 = name.toLevel)) = 0 then none
        else some ((groupStage (fun c : Confusion => c.studentId) (fun c => c.level)
            (fun b _ => b) (sortStage W)).countP (fun p => decide (p.2 = name.toLevel))) := by
      conv_lhs => unfold groupStage
      rw [lookupKey_foldl_count]
      rfl
    have hget : (lookupKey name.toLevel
        (groupStage (fun p : String × Int => p.2) (fun _ => 1) (fun n _ => n + 1)
          (groupStage (fun c : Confusion => c.studentId) (fun c => c.level)
            (fun b _ => b) (sortStage W)))).getD (zeroStats.get name) =
        (groupStage (fun c : Confusion => c.studentId) (fun c => c.level)
            (fun b _ => b) (sortStage W)).countP (fun p => decide (p.2 = name.toLevel)) := by
      rw [hcount]
      have hz : zeroStats.get name = 0 := by cases name <;> rfl
      split
      · rename_i h0
        rw [h0]
        exact hz
      · rfl
    rw [hget]
    have hnodup := nodup_keys_groupStage (fun c : Confusion => c.studentId) (fun c => c.level)
      (fun b _ => b) (sortStage W)
    generalize hlatest : groupStage (fun c : Confusion => c.studentId) (fun c => c.level)
      (fun b _ => b) (sortStage W) = latest at hnodup
    have hentry : ∀ e ∈ latest,
        decide (e.2 = name.toLevel) =
          decide ((latestReading W e.1).map (fun c => c.level) = some name.toLevel) := by
      intro e he
      have h1 : lookupKey e.1 latest = some e.2 := lookupKey_of_mem e.1 e.2 latest hnodup he
      rw [← hlatest, lookupKey_latest, find?_sortStage] at h1
      unfold latestReading
      rw [h1]
      simp
    have hperm : (latest.map Prod.fst).Perm (W.map fun c => c.studentId).dedup := by
      rw [List.perm_ext_iff_of_nodup hnodup (List.nodup_dedup _)]
      intro s
      rw [← hlatest]
      exact mem_keys_latest W s
    unfold snapshotCount
    rw [hW, ← List.countP_eq_length_filter, ← hperm.countP_eq, List.countP_map]
    exact List.countP_congr fun e he => by
      show decide (e.2 = name.toLevel) = true ↔ _
      rw [hentry e he]
      rfl
  · unfold getConfusionStats aggregate
    rw [hf, if_neg Bool.false_ne_true, if_neg Bool.false_ne_true]
    dsimp only
    have : matchStage sessionId (now - 5 * 60 * 1000)
        (confusions.filter fun c => decide (now - 5 * 60 * 1000 ≤ c.timestamp)) =
        matchStage sessionId (now - 5 * 60 * 1000) confusions := by
      unfold matchStage
      rw [List.filter_filter]
      congr 1
      funext c
      by_cases h1 : c.sessionId = sessionId <;>
        by_cases h2 : now - 5 * 60 * 1000 ≤ c.timestamp <;> simp [h1, h2]
    rw [this]

/-- C6, instance: on `sampleReadings` student `x` is counted once, under `lost`,
and the old reading of `y` is not counted. -/
theorem getConfusionStats_counts_witness :
    getConfusionStats Faults.none 1000000 sessionA.id sampleReadings =
        { clear := 0, slight := 0, confused := 0, lost := 1, total := 1 } ∧
    (∀ name : LevelName,
      (getConfusionStats Faults.none 1000000 sessionA.id sampleReadings).get name =
        snapshotCount 1000000 sessionA.id sampleReadings name.toLevel) ∧
    getConfusionStats Faults.none 1000000 sessionA.id sampleReadings =
      getConfusionStats Faults.none 1000000 sessionA.id
        (sampleReadings.filter fun c => decide (1000000 - 5 * 60 * 1000 ≤ c.timestamp)) :=
  ⟨by decide, getConfusionStats_counts Faults.none 1000000 sessionA.id sampleReadings rfl⟩

/-! ## C8: the stats endpoint -/

/-- C8 (amended): the stats endpoint replies 200, 404 or 500. It replies 404,
with an error and no stats body, exactly when the request carries a 6-character
code that no active session matches; it replies 500, with an error and the
zero-filled stats, exactly when the scan of the active sessions throws. In every
other case it replies 200 with no error and with the snapshot of the resolved
session. Every stats body it sends satisfies `total = clear + slight + confused
+ lost`, and is zero-filled when the aggregation throws. -/
theorem getStats_reply (f : Faults) (now : Int) (sessionId : String) (w : World) :
    ((getStats f now sessionId w).status = 200 ∨ (getStats f now sessionId w).status = 404 ∨
      (getStats f now sessionId w).status = 500) ∧
    ((getStats f now sessionId w).status = 500 ↔
      sessionId.length = 6 ∧ f.sessionFind = true) ∧
    ((getStats f now sessionId w).status = 404 ↔
      sessionId.length = 6 ∧ f.sessionFind = false ∧ findByCode w.sessions sessionId = none) ∧
    ((getStats f now sessionId w).error = none ↔ (getStats f now sessionId w).status = 200) ∧
    ((getStats f now sessionId w).stats = none ↔ (getStats f now sessionId w).status = 404) ∧
    ((getStats f now sessionId w).status = 200 →
      ∃ actual, resolveSessionId w.sessions sessionId = .ok actual ∧
        (getStats f now sessionId w).stats =
          some (getConfusionStats f now actual w.confusions)) ∧
    (∀ stats, (getStats f now sessionId w).stats = some stats →
      stats.total = stats.clear + stats.slight + stats.confused + stats.lost ∧
      ((getStats f now sessionId w).status = 500 ∨ f.confusionAggregate = true →
        stats = zeroStats)) := by
  unfold getStats
  by_cases h500 : sessionId.length = 6 ∧ f.sessionFind = true
  · rw [if_pos h500]
    refine ⟨by simp, by simp [h500], ?_, by simp, by simp, by simp, ?_⟩
    · simp [h500.2]
    · intro stats hs
      simp only [Option.some.injEq] at hs
      subst hs
      exact ⟨rfl, fun _ => rfl⟩
  · rw [if_neg h500]
    cases hres : resolveSessionId w.sessions sessionId with
    | error e =>
      have hcode : sessionId.length = 6 ∧ findByCode w.sessions sessionId = none := by
        unfold resolveSessionId at hres
        split at hres
        · rename_i hlen
          split at hres
          · cases hres
          · rename_i hnone
            exact ⟨hlen, hnone⟩
        · cases hres
      have hsf : f.sessionFind = false := by
        cases hf : f.sessionFind
        · rfl
        · exact absurd ⟨hcode.1, hf⟩ h500
      refine ⟨by simp, by simp [h500], by simp [hcode, hsf], by simp, by simp, by simp, ?_⟩
      intro stats hs
      simp at hs
    | ok actual =>
      have hcode : ¬ (sessionId.length = 6 ∧ f.sessionFind = false ∧
          findByCode w.sessions sessionId = none) := by
        rintro ⟨hlen, -, hnone⟩
        unfold resolveSessionId at hres
        rw [if_pos hlen, hnone] at hres
        cases hres
      refine ⟨by simp, by simp [h500], by simp [hcode], by simp, by simp, ?_, ?_⟩
      · intro _
        exact ⟨actual, rfl, rfl⟩
      · intro stats hs
        simp only [Option.some.injEq] at hs
        subst hs
        refine ⟨?_, ?_⟩
        · unfold getConfusionStats
          split
          · rfl
          · exact aggregate_tally_total actual (now - 5 * 60 * 1000) w.confusions
        · rintro (h | h)
          · simp at h
          · unfold getConfusionStats
            rw [if_pos h]

/-- C8 as stated fails: a 6-character code that no active session matches gets
404 with an error and no stats body. -/
theorem getStats_unresolved_code_counterexample :
    ¬ ∀ (f : Faults) (now : Int) (sessionId : String) (w : World),
      (getStats f now sessionId w).error = none ∧ (getStats f now sessionId w).stats ≠ none := by
  intro h
  have h1 := (h Faults.none 1000000 "ZZZZZZ" world0).1
  exact absurd h1 (by decide)

/-! ## C9: writes and broadcasts -/

theorem mergeBranch_fail_frame (f : Faults) (now : Int) (req : SubmitDoubtReq)
    (actual : String) (doubt mainDoubt : Doubt) (w : World)
    (h : (mergeBranch f now req actual doubt mainDoubt w).2.isOk = false) :
    (mergeBranch f now req actual doubt mainDoubt w).1.emitted = w.emitted ∧
    (mergeBranch f now req actual doubt mainDoubt w).1.sessions = w.sessions ∧
    (mergeBranch f now req actual doubt mainDoubt w).1.confusions = w.confusions := by
  unfold mergeBranch at h ⊢
  by_cases h1 : f.mainDoubtSave = true
  · simp [h1]
  · by_cases h2 : f.doubtSave = true
    · simp [h1, h2]
    · simp [h1, h2, Reply.isOk] at h

theorem createBranch_fail_frame (f : Faults) (actual : String) (session : Session)
    (doubt : Doubt) (w : World)
    (h : (createBranch f actual session doubt w).2.isOk = false) :
    (createBranch f actual session doubt w).1.emitted = w.emitted ∧
    (createBranch f actual session doubt w).1.sessions = w.sessions ∧
    (createBranch f actual session doubt w).1.confusions = w.confusions := by
  unfold createBranch at h ⊢
  by_cases h1 : f.doubtSave = true
  · simp [h1]
  · by_cases h2 : f.sessionSave = true
    · simp [h1, h2]
    · simp [h1, h2, Reply.isOk] at h

theorem submitResolved_fail_frame (nlp : Nlp) (f : Faults) (now : Int)
    (req : SubmitDoubtReq) (actual : String) (w : World)
    (h : (submitResolved nlp f now req actual w).2.isOk = false) :
    (submitResolved nlp f now req actual w).1.emitted = w.emitted ∧
    (submitResolved nlp f now req actual w).1.sessions = w.sessions ∧
    (submitResolved nlp f now req actual w).1.confusions = w.confusions := by
  unfold submitResolved at h ⊢
  by_cases hf : f.sessionFindById = true
  · simp [hf]
  · simp only [hf, if_false] at h ⊢
    cases hq : queryId req.sessionId actual with
    | none => simp
    | some objectId =>
      simp only [hq] at h ⊢
      cases hfind : w.sessions.find? (fun s => decide (s.id = objectId)) with
      | none => simp
      | some session =>
        simp only [hfind] at h ⊢
        by_cases hact : (!session.isActive) = true
        · simp [hact]
        · simp only [hact, if_false] at h ⊢
          by_cases hauto : session.settings.autoMergeDoubts = true
          · simp only [hauto, if_true] at h ⊢
            by_cases hfs : f.findSimilarDoubts = true
            · simp [hfs]
            · simp only [hfs, if_false] at h ⊢
              cases hsim : nlp.findSimilarDoubts w.doubts actual req.question with
              | nil =>
                simp only [hsim] at h ⊢
                exact createBranch_fail_frame f actual session _ _ h
              | cons m tail =>
                simp only [hsim] at h ⊢
                exact mergeBranch_fail_frame f now req actual _ m _ h
          · simp only [hauto, if_false] at h ⊢
            exact createBranch_fail_frame f actual session _ _ h

theorem submitDoubt_fail_frame (nlp : Nlp) (f : Faults) (now : Int) (req : SubmitDoubtReq)
    (w : World) (h : (submitDoubt nlp f now req w).2.isOk = false) :
    (submitDoubt nlp f now req w).1.emitted = w.emitted ∧
    (submitDoubt nlp f now req w).1.sessions = w.sessions ∧
    (submitDoubt nlp f now req w).1.confusions = w.confusions := by
  unfold submitDoubt at h ⊢
  split
  · exact ⟨rfl, rfl, rfl⟩
  · rename_i hf
    rw [if_neg hf] at h
    cases hres : resolveSessionId w.sessions req.sessionId with
    | error e => exact ⟨rfl, rfl, rfl⟩
    | ok actual =>
      rw [hres] at h
      exact submitResolved_fail_frame nlp f now req actual w h

/-- A submit that reaches the create branch is the run of `createBranch`. -/
theorem submitDoubt_eq_createBranch (nlp : Nlp) (f : Faults) (now : Int)
    (req : SubmitDoubtReq) (w : World) (actual objectId : String) (session : Session)
    (hscan : ¬ (req.sessionId.length = 6 ∧ f.sessionFind = true))
    (hres : resolveSessionId w.sessions req.sessionId = .ok actual)
    (hbyId : f.sessionFindById = false)
    (hq : queryId req.sessionId actual = some objectId)
    (hfind : w.sessions.find? (fun s => decide (s.id = objectId)) = some session)
    (hact : session.isActive = true)
    (hbranch : session.settings.autoMergeDoubts = false ∨
      (f.findSimilarDoubts = false ∧
        nlp.findSimilarDoubts w.doubts actual req.question = [])) :
    submitDoubt nlp f now req w =
      createBranch f actual session (newDoubt nlp now w.nextId actual req)
        { w with nextId := w.nextId + 1 } := by
  have hna : (!session.isActive) = false := by rw [hact]; rfl
  unfold submitDoubt
  rw [if_neg hscan, hres]
  dsimp only
  unfold submitResolved
  simp only [hbyId, Bool.false_eq_true, if_false, hq, hfind, hna]
  rcases hbranch with hb | ⟨hb1, hb2⟩
  · rw [if_neg (by rw [hb]; exact Bool.false_ne_true)]
  · simp only [hb1, Bool.false_eq_true, if_false, hb2]
    cases session.settings.autoMergeDoubts <;> rfl

theorem submitDoubt_ok_faultless (nlp : Nlp) (f : Faults) (now : Int) (req : SubmitDoubtReq)
    (w : World) (h : (submitDoubt nlp f now req w).2.isOk = true) :
    submitDoubt nlp f now req w = submitDoubt nlp Faults.none now req w ∧
    ∃ e, (submitDoubt nlp f now req w).1.emitted = w.emitted ++ [e] := by
  cases hr : submitDoubt nlp f now req w with
  | mk w' r =>
    cases r with
    | fail st e => rw [hr] at h; simp [Reply.isOk] at h
    | ok st body =>
      obtain ⟨actual, objectId, session, hres, hq, hfind, hact, hbr⟩ :=
        submitDoubt_ok_inv nlp f now req w w' st body hr
      have hscan : ¬ (req.sessionId.length = 6 ∧ Faults.none.sessionFind = true) := by
        simp [Faults.none]
      rcases hbr with ⟨hauto, m, tail, hsim, hmb⟩ | ⟨hcond, hcb⟩
      · obtain ⟨hw, hst, hb⟩ := mergeBranch_ok _ _ _ _ _ _ _ _ _ _ hmb
        rw [submitDoubt_eq_mergeBranch nlp Faults.none now req w actual objectId session m tail
          hscan hres rfl hq hfind hact hauto rfl hsim]
        refine ⟨?_, ⟨_, by rw [hw]⟩⟩
        rw [hw, hst, hb]
        rfl
      · obtain ⟨hw, hst, hb⟩ := createBranch_ok _ _ _ _ _ _ _ _ hcb
        rw [submitDoubt_eq_createBranch nlp Faults.none now req w actual objectId session
          hscan hres rfl hq hfind hact
          (hcond.elim Or.inl fun hsim => Or.inr ⟨rfl, hsim⟩)]
        refine ⟨?_, ⟨_, by rw [hw]⟩⟩
        rw [hw, hst, hb]
        rfl

theorem markAnswered_outcome (f : Faults) (now : Int) (id : Nat) (answer : Option String)
    (w : World) :
    ((markAnswered f now id answer w).2.isOk = true →
      markAnswered f now id answer w = markAnswered Faults.none now id answer w ∧
      ∃ e, (markAnswered f now id answer w).1.emitted = w.emitted ++ [e]) ∧
    ((markAnswered f now id answer w).2.isOk = false →
      (markAnswered f now id answer w).1.emitted = w.emitted ∧
      (markAnswered f now id answer w).1.sessions = w.sessions ∧
      (markAnswered f now id answer w).1.confusions = w.confusions) := by
  unfold markAnswered
  by_cases h1 : f.doubtFindById = true
  · simp [h1, Reply.isOk]
  · cases hfind : w.doubts.find? (fun d => decide (d.id = id)) with
    | none => simp [h1, Reply.isOk, Faults.none]
    | some doubt =>
      by_cases h2 : f.doubtSave = true
      · simp [h1, h2, Reply.isOk]
      · by_cases h3 : f.sessionFindByIdAndUpdate = true
        · simp [h1, h2, h3, Reply.isOk]
        · simp [h1, h2, h3, Reply.isOk, Faults.none, World.emit]

theorem upvoteDoubt_outcome (f : Faults) (id : Nat) (studentId : String) (w : World) :
    ((upvoteDoubt f id studentId w).2.isOk = true →
      upvoteDoubt f id studentId w = upvoteDoubt Faults.none id studentId w ∧
      ∃ e, (upvoteDoubt f id studentId w).1.emitted = w.emitted ++ [e]) ∧
    ((upvoteDoubt f id studentId w).2.isOk = false →
      (upvoteDoubt f id studentId w).1 = w) := by
  unfold upvoteDoubt
  by_cases h1 : f.doubtFindById = true
  · simp [h1, Reply.isOk]
  · cases hfind : w.doubts.find? (fun d => decide (d.id = id)) with
    | none => simp [h1, Reply.isOk, Faults.none]
    | some doubt =>
      by_cases h2 : f.doubtSave = true
      · simp [h1, h2, Reply.isOk]
      · simp [h1, h2, Reply.isOk, Faults.none, World.emit]

theorem submitConfusion_outcome (f : Faults) (now : Int) (req : SubmitConfusionReq)
    (w : World) :
    ((submitConfusion f now req w).2.isOk = true →
      (∃ sessionId, resolveSessionId w.sessions req.sessionId = .ok sessionId ∧
        (submitConfusion f now req w).1.confusions =
          w.confusions ++ [newConfusion now sessionId req]) ∧
      ∃ e, (submitConfusion f now req w).1.emitted = w.emitted ++ [e]) ∧
    ((submitConfusion f now req w).2.isOk = false →
      (submitConfusion f now req w).1 = w) := by
  unfold submitConfusion
  by_cases h1 : req.sessionId.length = 6 ∧ f.sessionFind = true
  · rw [if_pos h1]
    simp [Reply.isOk]
  · rw [if_neg h1]
    cases hres : resolveSessionId w.sessions req.sessionId with
    | error e => simp [Reply.isOk]
    | ok sessionId =>
      by_cases h2 : f.confusionSave = true
      · simp [h2, Reply.isOk]
      · simp [h2, Reply.isOk, World.emit]

/-- The merge branch when the save of the submitted doubt throws: the canonical
doubt has been saved. -/
theorem submitDoubt_merge_second_save_throws (nlp : Nlp) (f : Faults) (now : Int)
    (req : SubmitDoubtReq) (w : World) (actual objectId : String) (session : Session)
    (mainDoubt : Doubt) (rest : List Doubt)
    (hscan : ¬ (req.sessionId.length = 6 ∧ f.sessionFind = true))
    (hres : resolveSessionId w.sessions req.sessionId = .ok actual)
    (hbyId : f.sessionFindById = false)
    (hq : queryId req.sessionId actual = some objectId)
    (hfind : w.sessions.find? (fun s => decide (s.id = objectId)) = some session)
    (hact : session.isActive = true)
    (hauto : session.settings.autoMergeDoubts = true)
    (hmatcher : f.findSimilarDoubts = false)
    (hsim : nlp.findSimilarDoubts w.doubts actual req.question = mainDoubt :: rest)
    (hfirst : f.mainDoubtSave = false) (hsecond : f.doubtSave = true) :
    submitDoubt nlp f now req w =
      ({ w with
          nextId := w.nextId + 1,
          doubts := updateDoubt w.doubts
            { mainDoubt with
              mergedCount := mainDoubt.mergedCount + 1,
              mergedStudents := mainDoubt.mergedStudents ++ [mergedEntry now req] } },
        .fail 500 storeError) := by
  rw [submitDoubt_eq_mergeBranch nlp f now req w actual objectId session mainDoubt rest
    hscan hres hbyId hq hfind hact hauto hmatcher hsim]
  unfold mergeBranch
  simp [hfirst, hsecond]

/-- The create branch when `session.save()` throws: the new doubt has been
saved. -/
theorem submitDoubt_create_session_save_throws (nlp : Nlp) (f : Faults) (now : Int)
    (req : SubmitDoubtReq) (w : World) (actual objectId : String) (session : Session)
    (hscan : ¬ (req.sessionId.length = 6 ∧ f.sessionFind = true))
    (hres : resolveSessionId w.sessions req.sessionId = .ok actual)
    (hbyId : f.sessionFindById = false)
    (hq : queryId req.sessionId actual = some objectId)
    (hfind : w.sessions.find? (fun s => decide (s.id = objectId)) = some session)
    (hact : session.isActive = true)
    (hbranch : session.settings.autoMergeDoubts = false ∨
      (f.findSimilarDoubts = false ∧
        nlp.findSimilarDoubts w.doubts actual req.question = []))
    (hfirst : f.doubtSave = false) (hsecond : f.sessionSave = true) :
    submitDoubt nlp f now req w =
      ({ w with
          nextId := w.nextId + 1,
          doubts := w.doubts ++ [newDoubt nlp now w.nextId actual req] },
        .fail 500 storeError) := by
  rw [submitDoubt_eq_createBranch nlp f now req w actual objectId session
    hscan hres hbyId hq hfind hact hbranch]
  unfold createBranch
  simp [hfirst, hsecond, insertDoubt]

/-- The controller `markAnswered` when the session update throws: the doubt has
been saved as answered. -/
theorem markAnswered_session_update_throws (f : Faults) (now : Int) (id : Nat)
    (answer : Option String) (w : World) (doubt : Doubt)
    (hbyId : f.doubtFindById = false)
    (hfind : w.doubts.find? (fun d => decide (d.id = id)) = some doubt)
    (hfirst : f.doubtSave = false) (hsecond : f.sessionFindByIdAndUpdate = true) :
    markAnswered f now id answer w =
      ({ w with
          doubts := updateDoubt w.doubts
            { doubt with
              isAnswered := true,
              answeredAt := some now,
              answer := if truthy answer then answer else doubt.answer } },
        .fail 500 storeError) := by
  unfold markAnswered
  simp [hbyId, hfind, hfirst, hsecond]

/-- C9 (amended): in every domain operation the broadcast follows all the
writes, and nothing is rolled back. A request that succeeds has made every write
of the operation (its outcome is the one of the run in which no store call
throws) and has emitted exactly one event. A request that fails has emitted
nothing and has written neither sessions nor readings; `upvoteDoubt` and
`submitConfusion`, which write once, leave the whole state as it was. A write
that precedes the throwing call stays: the canonical doubt stays saved with its
incremented count when the save of the submitted doubt throws in the merge
branch, the new doubt stays saved when `session.save()` throws in the create
branch, and the doubt stays answered when the session update throws in
`markAnswered`. -/
theorem broadcast_follows_writes (nlp : Nlp) (f : Faults) (now : Int) :
    (∀ (req : SubmitDoubtReq) (w : World),
      ((submitDoubt nlp f now req w).2.isOk = true →
        submitDoubt nlp f now req w = submitDoubt nlp Faults.none now req w ∧
        ∃ e, (submitDoubt nlp f now req w).1.emitted = w.emitted ++ [e]) ∧
      ((submitDoubt nlp f now req w).2.isOk = false →
        (submitDoubt nlp f now req w).1.emitted = w.emitted ∧
        (submitDoubt nlp f now req w).1.sessions = w.sessions ∧
        (submitDoubt nlp f now req w).1.confusions = w.confusions)) ∧
    (∀ (id : Nat) (answer : Option String) (w : World),
      ((markAnswered f now id answer w).2.isOk = true →
        markAnswered f now id answer w = markAnswered Faults.none now id answer w ∧
        ∃ e, (markAnswered f now id answer w).1.emitted = w.emitted ++ [e]) ∧
      ((markAnswered f now id answer w).2.isOk = false →
        (markAnswered f now id answer w).1.emitted = w.emitted ∧
        (markAnswered f now id answer w).1.sessions = w.sessions ∧
        (markAnswered f now id answer w).1.confusions = w.confusions)) ∧
    (∀ (id : Nat) (studentId : String) (w : World),
      ((upvoteDoubt f id studentId w).2.isOk = true →
        upvoteDoubt f id studentId w = upvoteDoubt Faults.none id studentId w ∧
        ∃ e, (upvoteDoubt f id studentId w).1.emitted = w.emitted ++ [e]) ∧
      ((upvoteDoubt f id studentId w).2.isOk = false →
        (upvoteDoubt f id studentId w).1 = w)) ∧
    (∀ (req : SubmitConfusionReq) (w : World),
      ((submitConfusion f now req w).2.isOk = true →
        (∃ sessionId, resolveSessionId w.sessions req.sessionId = .ok sessionId ∧
          (submitConfusion f now req w).1.confusions =
            w.confusions ++ [newConfusion now sessionId req]) ∧
        ∃ e, (submitConfusion f now req w).1.emitted = w.emitted ++ [e]) ∧
      ((submitConfusion f now req w).2.isOk = false →
        (submitConfusion f now req w).1 = w)) ∧
    (∀ (req : SubmitDoubtReq) (w : World) (actual objectId : String) (session : Session)
        (mainDoubt : Doubt) (rest : List Doubt),
      ¬ (req.sessionId.length = 6 ∧ f.sessionFind = true) →
      resolveSessionId w.sessions req.sessionId = .ok actual →
      f.sessionFindById = false →
      queryId req.sessionId actual = some objectId →
      w.sessions.find? (fun s => decide (s.id = objectId)) = some session →
      session.isActive = true →
      session.settings.autoMergeDoubts = true →
      f.findSimilarDoubts = false →
      nlp.findSimilarDoubts w.doubts actual req.question = mainDoubt :: rest →
      f.mainDoubtSave = false → f.doubtSave = true →
      submitDoubt nlp f now req w =
        ({ w with
            nextId := w.nextId + 1,
            doubts := updateDoubt w.doubts
              { mainDoubt with
                mergedCount := mainDoubt.mergedCount + 1,
                mergedStudents := mainDoubt.mergedStudents ++ [mergedEntry now req] } },
          .fail 500 storeError)) ∧
    (∀ (req : SubmitDoubtReq) (w : World) (actual objectId : String) (session : Session),
      ¬ (req.sessionId.length = 6 ∧ f.sessionFind = true) →
      resolveSessionId w.sessions req.sessionId = .ok actual →
      f.sessionFindById = false →
      queryId req.sessionId actual = some objectId →
      w.sessions.find? (fun s => decide (s.id = objectId)) = some session →
      session.isActive = true →
      (session.settings.autoMergeDoubts = false ∨
        (f.findSimilarDoubts = false ∧
          nlp.findSimilarDoubts w.doubts actual req.question = [])) →
      f.doubtSave = false → f.sessionSave = true →
      submitDoubt nlp f now req w =
        ({ w with
            nextId := w.nextId + 1,
            doubts := w.doubts ++ [newDoubt nlp now w.nextId actual req] },
          .fail 500 storeError)) ∧
    (∀ (id : Nat) (answer : Option String) (w : World) (doubt : Doubt),
      f.doubtFindById = false →
      w.doubts.find? (fun d => decide (d.id = id)) = some doubt →
      f.doubtSave = false → f.sessionFindByIdAndUpdate = true →
      markAnswered f now id answer w =
        ({ w with
            doubts := updateDoubt w.doubts
              { doubt with
                isAnswered := true,
                answeredAt := some now,
                answer := if truthy answer then answer else doubt.answer } },
          .fail 500 storeError)) :=
  ⟨fun req w => ⟨submitDoubt_ok_faultless nlp f now req w,
      submitDoubt_fail_frame nlp f now req w⟩,
    fun id answer w => markAnswered_outcome f now id answer w,
    fun id studentId w => upvoteDoubt_outcome f id studentId w,
    fun req w => submitConfusion_outcome f now req w,
    fun req w actual objectId session mainDoubt rest h1 h2 h3 h4 h5 h6 h7 h8 h9 h10 h11 =>
      submitDoubt_merge_second_save_throws nlp f now req w actual objectId session mainDoubt
        rest h1 h2 h3 h4 h5 h6 h7 h8 h9 h10 h11,
    fun req w actual objectId session h1 h2 h3 h4 h5 h6 h7 h8 h9 =>
      submitDoubt_create_session_save_throws nlp f now req w actual objectId session
        h1 h2 h3 h4 h5 h6 h7 h8 h9,
    fun id answer w doubt h1 h2 h3 h4 =>
      markAnswered_session_update_throws f now id answer w doubt h1 h2 h3 h4⟩

/-- C9 as stated fails: when the save of the submitted doubt throws in the merge
branch, the request fails with 500 and emits nothing, but the canonical doubt has
already been saved with its `mergedCount` incremented. -/
theorem submitDoubt_partial_write_counterexample :
    (submitDoubt sameTextNlp doubtSaveFails 2000 bobReq worldAfterAlice).2 =
        .fail 500 storeError ∧
    (submitDoubt sameTextNlp doubtSaveFails 2000 bobReq worldAfterAlice).1.emitted =
        worldAfterAlice.emitted ∧
    worldAfterAlice.doubts = [aliceDoubt] ∧
    (submitDoubt sameTextNlp doubtSaveFails 2000 bobReq worldAfterAlice).1.doubts =
        [aliceDoubtMerged] ∧
    aliceDoubtMerged ≠ aliceDoubt := by
  decide

/-! ## C10: one event, one room -/

theorem resolveSessionId_code_mem (sessions : List Session) (raw actual : String)
    (hlen : raw.length = 6) (h : resolveSessionId sessions raw = .ok actual) :
    ∃ s ∈ sessions, s.isActive = true ∧ codeMatches raw s = true ∧ s.id = actual := by
  unfold resolveSessionId at h
  rw [if_pos hlen] at h
  cases hf : findByCode sessions raw with
  | none => rw [hf] at h; cases h
  | some s =>
    rw [hf] at h
    simp only [Except.ok.injEq] at h
    unfold findByCode at hf
    have hmem := List.mem_of_find?_eq_some hf
    rw [List.mem_filter] at hmem
    exact ⟨s, hmem.1, hmem.2, List.find?_some hf, h⟩

/-- What a successful submit emits: exactly one event, `doubt-merged` with the
canonical doubt of the reply and its `mergedCount` or `new-doubt` with the new
doubt. Its room is `actualSessionId.toString()`: the identity string of the
session after a 6-character code, the request string itself otherwise, of which
only the cast is the identity of the session. -/
theorem submitDoubt_emission (nlp : Nlp) (f : Faults) (now : Int)
    (req : SubmitDoubtReq) (w w' : World) (st : Nat) (body : SubmitDoubtBody)
    (h : submitDoubt nlp f now req w = (w', .ok st body)) :
    ∃ session e,
      session ∈ w.sessions ∧ session.isActive = true ∧
      w'.emitted = w.emitted ++ [e] ∧
      (req.sessionId.length = 6 →
        e.room = session.id ∧ codeMatches req.sessionId session = true) ∧
      (req.sessionId.length ≠ 6 →
        e.room = req.sessionId ∧ castObjectId req.sessionId = some session.id) ∧
      e.payload =
        (if body.merged = true then Payload.doubtMerged body.doubt body.doubt.mergedCount
          else Payload.newDoubt body.doubt) ∧
      ∀ (sockets : List Socket) (c : Socket),
        (∀ r ∈ c.rooms, r ≠ e.room) → c ∉ receivers sockets e := by
  obtain ⟨actual, objectId, session, hres, hq, hfind, hact, hbr⟩ :=
    submitDoubt_ok_inv nlp f now req w w' st body h
  have hsid : session.id = objectId := by simpa using List.find?_some hfind
  have hmem : session ∈ w.sessions := List.mem_of_find?_eq_some hfind
  have hcode : req.sessionId.length = 6 →
      actual = session.id ∧ codeMatches req.sessionId session = true := by
    intro hlen
    obtain ⟨s, -, -, hcm, hs⟩ := resolveSessionId_code_mem w.sessions _ _ hlen hres
    unfold queryId at hq
    rw [if_pos hlen] at hq
    have ha : actual = session.id := by rw [hsid]; exact Option.some.inj hq
    refine ⟨ha, ?_⟩
    unfold codeMatches at hcm ⊢
    rw [← ha, ← hs]
    exact hcm
  have hraw : req.sessionId.length ≠ 6 →
      actual = req.sessionId ∧ castObjectId req.sessionId = some session.id := by
    intro hlen
    unfold resolveSessionId at hres
    rw [if_neg hlen] at hres
    simp only [Except.ok.injEq] at hres
    unfold queryId at hq
    rw [if_neg hlen] at hq
    exact ⟨hres.symm, by rw [hres, hq, hsid]⟩
  have hrecv : ∀ (e : Emission) (sockets : List Socket) (c : Socket),
      (∀ r ∈ c.rooms, r ≠ e.room) → c ∉ receivers sockets e := by
    intro e sockets c hc hin
    unfold receivers at hin
    rw [List.mem_filter] at hin
    have : e.room ∈ c.rooms := by simpa using hin.2
    exact hc _ this rfl
  rcases hbr with ⟨-, m, tail, -, hmb⟩ | ⟨-, hcb⟩
  · obtain ⟨hw, -, hb⟩ := mergeBranch_ok _ _ _ _ _ _ _ _ _ _ hmb
    refine ⟨session, _, hmem, hact, by rw [hw], ?_, ?_, by rw [hb]; rfl, hrecv _⟩
    · intro hlen
      exact ⟨(hcode hlen).1, (hcode hlen).2⟩
    · intro hlen
      exact ⟨(hraw hlen).1, (hraw hlen).2⟩
  · obtain ⟨hw, -, hb⟩ := createBranch_ok _ _ _ _ _ _ _ _ hcb
    refine ⟨session, _, hmem, hact, by rw [hw], ?_, ?_, by rw [hb]; rfl, hrecv _⟩
    · intro hlen
      exact ⟨(hcode hlen).1, (hcode hlen).2⟩
    · intro hlen
      exact ⟨(hraw hlen).1, (hraw hlen).2⟩

/-- C10 fails on the code: `upperReq` names `sessionA` by its identity in upper
case. `Session.findById` casts the string and finds the session, the submit is
served (201, merged = false, `totalDoubts` of `sessionA` goes to 1), and its one
event, `new-doubt`, goes to the room named by the request string, which is not
the room of `sessionA`; a socket that joined the room of `sessionA` is not among
the receivers. -/
theorem submitDoubt_upperReq_room :
    world0.sessions = [sessionA] ∧
    castObjectId upperReq.sessionId = some sessionA.id ∧
    (submitDoubt sameTextNlp Faults.none 1000 upperReq world0).2 =
        .ok 201 { doubt := newDoubt sameTextNlp 1000 0 upperReq.sessionId upperReq,
                  merged := false } ∧
    (submitDoubt sameTextNlp Faults.none 1000 upperReq world0).1.sessions =
        [{ sessionA with stats := { totalDoubts := 1, answeredDoubts := 0 } }] ∧
    (submitDoubt sameTextNlp Faults.none 1000 upperReq world0).1.emitted =
        [{ room := "AAAAAAAAAAAAAAAAAAAB12CD",
           payload := .newDoubt (newDoubt sameTextNlp 1000 0 upperReq.sessionId upperReq) }] ∧
    "AAAAAAAAAAAAAAAAAAAB12CD" ≠ sessionA.id ∧
    socketInA.rooms = [sessionA.id] ∧
    ∀ e ∈ (submitDoubt sameTextNlp Faults.none 1000 upperReq world0).1.emitted,
      socketInA ∉ receivers [socketInA] e := by
  decide

/-! ## C11: `mergedCount` and `mergedStudents` -/

theorem counts_updateDoubt (doubts : List Doubt) (d1 : Doubt)
    (h : ∀ d ∈ doubts, d.mergedCount = (d.mergedStudents.length : Int))
    (h1 : d1.mergedCount = (d1.mergedStudents.length : Int)) :
    ∀ d ∈ updateDoubt doubts d1, d.mergedCount = (d.mergedStudents.length : Int) := by
  intro d hd
  unfold updateDoubt at hd
  obtain ⟨r, hr, hrd⟩ := List.mem_map.1 hd
  by_cases hid : r.id = d1.id
  · rw [if_pos hid] at hrd
    rw [← hrd]
    exact h1
  · rw [if_neg hid] at hrd
    rw [← hrd]
    exact h r hr

theorem counts_insertDoubt (doubts : List Doubt) (d1 : Doubt)
    (h : ∀ d ∈ doubts, d.mergedCount = (d.mergedStudents.length : Int))
    (h1 : d1.mergedCount = (d1.mergedStudents.length : Int)) :
    ∀ d ∈ insertDoubt doubts d1, d.mergedCount = (d.mergedStudents.length : Int) := by
  intro d hd
  unfold insertDoubt at hd
  rcases List.mem_append.1 hd with hd | hd
  · exact h d hd
  · rw [List.mem_singleton] at hd
    rw [hd]
    exact h1

theorem counts_mergeBranch (f : Faults) (now : Int) (req : SubmitDoubtReq)
    (actual : String) (doubt mainDoubt : Doubt) (w : World)
    (h : ∀ d ∈ w.doubts, d.mergedCount = (d.mergedStudents.length : Int))
    (hd : doubt.mergedCount = (doubt.mergedStudents.length : Int))
    (hm : mainDoubt.mergedCount = (mainDoubt.mergedStudents.length : Int)) :
    ∀ d ∈ (mergeBranch f now req actual doubt mainDoubt w).1.doubts,
      d.mergedCount = (d.mergedStudents.length : Int) := by
  have hm1 : ∀ d ∈ updateDoubt w.doubts
      { mainDoubt with
        mergedCount := mainDoubt.mergedCount + 1,
        mergedStudents := mainDoubt.mergedStudents ++ [mergedEntry now req] },
      d.mergedCount = (d.mergedStudents.length : Int) := by
    apply counts_updateDoubt _ _ h
    show mainDoubt.mergedCount + 1 =
      ((mainDoubt.mergedStudents ++ [mergedEntry now req]).length : Int)
    rw [hm, List.length_append]
    simp
  unfold mergeBranch
  by_cases h1 : f.mainDoubtSave = true
  · simpa [h1] using h
  · by_cases h2 : f.doubtSave = true
    · simpa [h1, h2] using hm1
    · simp only [h1, h2, Bool.false_eq_true, if_false, World.emit]
      exact counts_insertDoubt _ _ hm1 hd

theorem counts_createBranch (f : Faults) (actual : String) (session : Session)
    (doubt : Doubt) (w : World)
    (h : ∀ d ∈ w.doubts, d.mergedCount = (d.mergedStudents.length : Int))
    (hd : doubt.mergedCount = (doubt.mergedStudents.length : Int)) :
    ∀ d ∈ (createBranch f actual session doubt w).1.doubts,
      d.mergedCount = (d.mergedStudents.length : Int) := by
  unfold createBranch
  by_cases h1 : f.doubtSave = true
  · simpa [h1] using h
  · by_cases h2 : f.sessionSave = true
    · simp only [h1, h2, Bool.false_eq_true, if_false, if_true]
      exact counts_insertDoubt _ _ h hd
    · simp only [h1, h2, Bool.false_eq_true, if_false, World.emit]
      exact counts_insertDoubt _ _ h hd

theorem counts_submitDoubt (nlp : Nlp) (f : Faults) (now : Int) (req : SubmitDoubtReq)
    (w : World)
    (hrows : ∀ doubts sid q, ∀ d ∈ nlp.findSimilarDoubts doubts sid q, d ∈ doubts)
    (h : ∀ d ∈ w.doubts, d.mergedCount = (d.mergedStudents.length : Int)) :
    ∀ d ∈ (submitDoubt nlp f now req w).1.doubts,
      d.mergedCount = (d.mergedStudents.length : Int) := by
  unfold submitDoubt
  split
  · exact h
  · cases hres : resolveSessionId w.sessions req.sessionId with
    | error e => exact h
    | ok actual =>
      dsimp only
      unfold submitResolved
      split
      · exact h
      · cases hq : queryId req.sessionId actual with
        | none => exact h
        | some objectId =>
          dsimp only
          cases hfind : w.sessions.find? (fun s => decide (s.id = objectId)) with
          | none => exact h
          | some session =>
            dsimp only
            split
            · exact h
            · split
              · split
                · exact h
                · cases hsim : nlp.findSimilarDoubts w.doubts actual req.question with
                  | nil => exact counts_createBranch f actual session _ _ h rfl
                  | cons m tail =>
                    have hmem := hrows w.doubts actual req.question m
                      (by rw [hsim]; exact List.mem_cons_self _ _)
                    exact counts_mergeBranch f now req actual _ m _ h rfl (h m hmem)
              · exact counts_createBranch f actual session _ _ h rfl

theorem counts_markAnswered (f : Faults) (now : Int) (id : Nat) (answer : Option String)
    (w : World) (h : ∀ d ∈ w.doubts, d.mergedCount = (d.mergedStudents.length : Int)) :
    ∀ d ∈ (markAnswered f now id answer w).1.doubts,
      d.mergedCount = (d.mergedStudents.length : Int) := by
  unfold markAnswered
  split
  · exact h
  · cases hfind : w.doubts.find? (fun d => decide (d.id = id)) with
    | none => exact h
    | some doubt =>
      have hd := h doubt (List.mem_of_find?_eq_some hfind)
      have hu := counts_updateDoubt w.doubts
        { doubt with
          isAnswered := true,
          answeredAt := some now,
          answer := if truthy answer then answer else doubt.answer } h hd
      dsimp only
      split
      · exact h
      · split
        · exact hu
        · exact hu

theorem counts_upvoteDoubt (f : Faults) (id : Nat) (studentId : String) (w : World)
    (h : ∀ d ∈ w.doubts, d.mergedCount = (d.mergedStudents.length : Int)) :
    ∀ d ∈ (upvoteDoubt f id studentId w).1.doubts,
      d.mergedCount = (d.mergedStudents.length : Int) := by
  unfold upvoteDoubt
  split
  · exact h
  · cases hfind : w.doubts.find? (fun d => decide (d.id = id)) with
    | none => exact h
    | some doubt =>
      have hd := h doubt (List.mem_of_find?_eq_some hfind)
      have ht : (toggleUpvote doubt studentId).mergedCount =
          ((toggleUpvote doubt studentId).mergedStudents.length : Int) := by
        unfold toggleUpvote
        split <;> exact hd
      have hu := counts_updateDoubt w.doubts (toggleUpvote doubt studentId) h ht
      dsimp only
      split
      · exact h
      · exact hu

/-- Every stored doubt, canonical or merged, keeps `mergedCount` equal to the
length of `mergedStudents` through any sequence of requests. -/
theorem counts_runCalls (nlp : Nlp)
    (hrows : ∀ doubts sid q, ∀ d ∈ nlp.findSimilarDoubts doubts sid q, d ∈ doubts)
    (calls : List Call) (w : World)
    (h : ∀ d ∈ w.doubts, d.mergedCount = (d.mergedStudents.length : Int)) :
    ∀ d ∈ (runCalls nlp calls w).doubts, d.mergedCount = (d.mergedStudents.length : Int) := by
  induction calls generalizing w with
  | nil => exact h
  | cons c cs ih =>
    apply ih
    cases c with
    | submit f now req => exact counts_submitDoubt nlp f now req w hrows h
    | answer f now id text => exact counts_markAnswered f now id text w h
    | upvote f id studentId => exact counts_upvoteDoubt f id studentId w h

/-- C11: start from a store without doubts and serve any sequence of submit,
markAnswered and upvote requests, each failing or succeeding at any of its store
calls, with a matcher that returns stored doubts. In the state reached, every
canonical doubt (`mergedWith = null`) has `mergedCount` equal to the length of
its `mergedStudents`. -/
theorem canonical_mergedCount_eq_length (nlp : Nlp)
    (hrows : ∀ doubts sid q, ∀ d ∈ nlp.findSimilarDoubts doubts sid q, d ∈ doubts)
    (calls : List Call) (w0 : World) (h0 : w0.doubts = []) :
    ∀ d ∈ (runCalls nlp calls w0).doubts, d.mergedWith = none →
      d.mergedCount = (d.mergedStudents.length : Int) := by
  intro d hd _
  refine counts_runCalls nlp hrows calls w0 ?_ d hd
  intro d' hd'
  rw [h0] at hd'
  exact absurd hd' (List.not_mem_nil _)

/-- C11, instance: after `sampleCalls` the one canonical doubt has been merged
into twice and lists three students. -/
theorem canonical_mergedCount_eq_length_witness :
    canonicalDoubts (runCalls sameTextNlp sampleCalls world0) sessionA.id =
        (runCalls sameTextNlp sampleCalls world0).doubts.filter (fun d => d.isCanonical) ∧
    ((runCalls sameTextNlp sampleCalls world0).doubts.map fun d =>
        (d.mergedWith, d.mergedCount, d.mergedStudents.length)) =
      [(none, 3, 3), (some 0, 1, 1)] ∧
    ∀ d ∈ (runCalls sameTextNlp sampleCalls world0).doubts, d.mergedWith = none →
      d.mergedCount = (d.mergedStudents.length : Int) :=
  ⟨by decide, by decide,
    canonical_mergedCount_eq_length sameTextNlp
      (fun doubts sid q d hd => (sameTextNlp_returns_canonical doubts sid q d hd).1)
      sampleCalls world0 rfl⟩

/-! ## C12: the upvote toggle keeps the count and the list in step -/

/-- C12: when `upvotedBy` holds no identity twice and `upvotes` is its length,
the same is true after `toggleUpvote`. -/
theorem toggleUpvote_keeps_count (d : Doubt) (s : String)
    (hnodup : d.upvotedBy.Nodup) (hcount : d.upvotes = (d.upvotedBy.length : Int)) :
    (toggleUpvote d s).upvotedBy.Nodup ∧
    (toggleUpvote d s).upvotes = ((toggleUpvote d s).upvotedBy.length : Int) := by
  by_cases hs : s ∈ d.upvotedBy
  · have h1 : d.upvotedBy.contains s = true := by simpa using hs
    simp only [toggleUpvote, h1, if_true]
    refine ⟨hnodup.filter _, ?_⟩
    have hlen : (d.upvotedBy.filter fun id => decide (id ≠ s)).length + 1 =
        d.upvotedBy.length := by
      have hcnt : d.upvotedBy.count s = 1 := List.count_eq_one_of_mem hnodup hs
      have hsplit := List.length_eq_countP_add_countP (fun id => decide (id ≠ s)) d.upvotedBy
      rw [← List.countP_eq_length_filter]
      have hneg : d.upvotedBy.countP (fun a => ¬ (decide (a ≠ s)) = true) =
          d.upvotedBy.count s := by
        unfold List.count
        apply List.countP_congr
        intro a _
        simp
      rw [hneg, hcnt] at hsplit
      omega
    rw [hcount]
    omega
  · have h1 : d.upvotedBy.contains s = false := by simpa using hs
    simp only [toggleUpvote, h1, Bool.false_eq_true, if_false]
    refine ⟨?_, ?_⟩
    · exact List.Nodup.append hnodup (List.nodup_singleton _)
        (by intro x hx hx'; rw [List.mem_singleton] at hx'; exact hs (hx' ▸ hx))
    · rw [hcount, List.length_append]
      simp

/-- C12, instance: `bob` upvotes the doubt of `aliceReq`, which has no upvotes. -/
theorem toggleUpvote_keeps_count_witness :
    (toggleUpvote aliceDoubt "bob").upvotedBy = ["bob"] ∧
    (toggleUpvote aliceDoubt "bob").upvotes = 1 ∧
    (toggleUpvote aliceDoubt "bob").upvotedBy.Nodup ∧
    (toggleUpvote aliceDoubt "bob").upvotes =
      ((toggleUpvote aliceDoubt "bob").upvotedBy.length : Int) :=
  ⟨by decide, by decide, toggleUpvote_keeps_count aliceDoubt "bob" (by decide) (by decide)⟩

end NoHesitation
